import Mathlib

/-!
# Game of Life on a 160 x 120 torus: embedding of `src/main.cpp`

The C++ program keeps two heap buffers `bool** grid` and `bool** oldGrid`, each made of
`GRID_WIDTH` columns of `GRID_HEIGHT` cells (`main`, lines 285-290).  A buffer is embedded
as a fixed-size array of fixed-size arrays of `Bool`.  Every C++ subscript
`grid[x][y]` goes through `Grid.read` / `Grid.write`, which fail (`none`) when the index
is outside the buffer, so that "the access is in range" is something the theorems prove
and not something the definitions assume.  `int` values are embedded as `Int`.  The
one `int` computation that can overflow for representable arguments, `x - 1 + i` and
`y - 1 + j` in `calcNeighbours`, goes through `intResult`, which has no value when the
result is not representable (signed overflow is undefined behaviour); the arithmetic of
`isAlive` stays in range for representable arguments (`wrapStep_in_int_range`), and the
counters and the neighbour count stay below 160.
The two buffers are distinct allocations (and `swapGrids` only exchanges the two
pointers), so they are embedded as two values.
-/

namespace GameOfLife

/-! ## Constants and buffers -/

/-- Source line 8: `const int GRID_WIDTH = 160;`. -/
def GRID_WIDTH : Int := 160

/-- Source line 9: `const int GRID_HEIGHT = 120;`. -/
def GRID_HEIGHT : Int := 120

/-- Source line 10: `const int CELL_SIZE = 4;`. -/
def CELL_SIZE : Int := 4

/-- Least value of the 32-bit `int` the program computes with. -/
def INT_MIN : Int := -2147483648

/-- Greatest value of the 32-bit `int` the program computes with. -/
def INT_MAX : Int := 2147483647

/-- The value of an `int` operation whose mathematical result is `v`: defined only when
`v` is representable in 32 bits, signed overflow being undefined behaviour. -/
def intResult (v : Int) : Option Int :=
  if INT_MIN ≤ v ∧ v ≤ INT_MAX then some v else none

/-- One buffer as allocated in `main` (source lines 285-290): `new bool*[GRID_WIDTH]`,
160 columns, each a `new bool[GRID_HEIGHT]` of 120 cells. -/
structure Grid where
  cols : Batteries.Vector (Batteries.Vector Bool 120) 160
  deriving DecidableEq

/-- The cell in column `i`, row `j` of a buffer. -/
def Grid.cell (grid : Grid) (i : Fin 160) (j : Fin 120) : Bool :=
  (grid.cols.get i).get j

/-- The buffer whose cell `(i, j)` holds `f i j`. -/
def Grid.ofFn (f : Fin 160 → Fin 120 → Bool) : Grid :=
  ⟨Batteries.Vector.ofFn fun i => Batteries.Vector.ofFn fun j => f i j⟩

/-- The rvalue `grid[x][y]`: defined only when both subscripts are inside the buffer. -/
def Grid.read (grid : Grid) (x y : Int) : Option Bool :=
  if h : 0 ≤ x ∧ x < 160 ∧ 0 ≤ y ∧ y < 120 then
    some (grid.cell ⟨x.toNat, by omega⟩ ⟨y.toNat, by omega⟩)
  else none

/-- Update of one in-range cell, every other cell kept. -/
def Grid.set (grid : Grid) (i : Fin 160) (j : Fin 120) (v : Bool) : Grid :=
  ⟨grid.cols.set i ((grid.cols.get i).set j v)⟩

/-- The assignment `grid[x][y] = v`: defined only when both subscripts are inside the
buffer. -/
def Grid.write (grid : Grid) (x y : Int) (v : Bool) : Option Grid :=
  if h : 0 ≤ x ∧ x < 160 ∧ 0 ≤ y ∧ y < 120 then
    some (grid.set ⟨x.toNat, by omega⟩ ⟨y.toNat, by omega⟩ v)
  else none

/-- The cell an arbitrary integer coordinate resolves to on the torus (Euclidean
residues of `x` modulo 160 and `y` modulo 120).  Specification-side accessor. -/
def Grid.torus (grid : Grid) (x y : Int) : Bool :=
  grid.cell ⟨(x % 160).toNat, by omega⟩ ⟨(y % 120).toNat, by omega⟩

/-! ## `isAlive` (source lines 60-72) -/

/-- Distance of a coordinate `v` from the interval `[0, n)`, counted so that it is
positive exactly outside the interval. -/
def wrapDist (n v : Int) : Nat :=
  if v ≥ n then (v - n).toNat + 1 else if v < 0 then (-v).toNat else 0

/-- The measure that decreases along the self-recursion of `isAlive`. -/
def wrapMeasure (x y : Int) : Nat :=
  wrapDist GRID_WIDTH x + wrapDist GRID_HEIGHT y

/-- The arguments of the recursive call that `isAlive(x, y, _)` makes, in the order of
its four `if`s; `none` when it makes none and falls through to `return grid[x][y]`. -/
def wrapStep (x y : Int) : Option (Int × Int) :=
  if x ≥ GRID_WIDTH then some (x - GRID_WIDTH, y)
  else if y ≥ GRID_HEIGHT then some (x, y - GRID_HEIGHT)
  else if x < 0 then some (x + GRID_WIDTH, y)
  else if y < 0 then some (x, y + GRID_HEIGHT)
  else none

/-- Source lines 60-72, `bool isAlive(int x, int y, bool** grid)`. -/
def isAlive (x y : Int) (grid : Grid) : Option Bool :=
  if x ≥ GRID_WIDTH then
    isAlive (x - GRID_WIDTH) y grid
  else if y ≥ GRID_HEIGHT then
    isAlive x (y - GRID_HEIGHT) grid
  else if x < 0 then
    isAlive (x + GRID_WIDTH) y grid
  else if y < 0 then
    isAlive x (y + GRID_HEIGHT) grid
  else
    grid.read x y
termination_by wrapMeasure x y
decreasing_by
  all_goals simp_wf
  all_goals simp only [wrapMeasure, wrapDist, GRID_WIDTH, GRID_HEIGHT] at *
  all_goals split_ifs <;> omega

/-! ## `calcNeighbours` (source lines 74-91) -/

/-- Source lines 74-91, `int calcNeighbours(int x, int y, bool** grid)`: the two `for`
loops over `i, j = 0, 1, 2` are folds over `List.range 3`, the accumulator is the local
`neighbours`, and `continue` leaves it as it is.  The arguments `x - 1 + i` and
`y - 1 + j` of the call of `isAlive` are `(x - 1) + i` and `(y - 1) + j` computed in
`int`: each subtraction and each addition has a value only when it does not overflow. -/
def calcNeighbours (x y : Int) (grid : Grid) : Option Int :=
  (List.range 3).foldlM (fun (neighbours : Int) (i : Nat) =>
    (List.range 3).foldlM (fun (neighbours : Int) (j : Nat) =>
      if i = 1 ∧ j = 1 then
        pure neighbours
      else do
        let x1 ← intResult (x - 1)
        let xi ← intResult (x1 + (i : Int))
        let y1 ← intResult (y - 1)
        let yj ← intResult (y1 + (j : Int))
        let alive ← isAlive xi yj grid
        pure (if alive then neighbours + 1 else neighbours))
      neighbours) 0

/-! ## `stepSimulation` (source lines 93-111) -/

/-- The contents of the two buffers `grid` and `oldGrid`. -/
structure Buffers where
  grid : Grid
  oldGrid : Grid

/-- The body of the inner loop of `stepSimulation` (source lines 99-105) at cell
`(x, y)`.  The right operand of `&&` is evaluated only when `neighbours == 2`. -/
def stepCell (x y : Int) (s : Buffers) : Option Buffers := do
  let g0 ← s.grid.write x y false
  let neighbours ← calcNeighbours x y s.oldGrid
  let g1 ← if neighbours = 3 then g0.write x y true else pure g0
  let g2 ←
    if neighbours = 2 then do
      let alive ← isAlive x y s.oldGrid
      if alive then g1.write x y true else pure g1
    else pure g1
  pure { grid := g2, oldGrid := s.oldGrid }

/-- Source lines 93-111, `void stepSimulation(bool** grid, bool** oldGrid)`: `x` runs
over `0 .. GRID_WIDTH - 1` in the outer loop, `y` over `0 .. GRID_HEIGHT - 1` in the
inner one. -/
def stepSimulation (s : Buffers) : Option Buffers :=
  (List.range 160).foldlM (fun (s : Buffers) (x : Nat) =>
    (List.range 120).foldlM (fun (s : Buffers) (y : Nat) =>
      stepCell (x : Int) (y : Int) s) s) s

/-- Source lines 147-152, `swapGrids`: the two pointers are exchanged. -/
def swapGrids (s : Buffers) : Buffers :=
  let temp := s.oldGrid
  { grid := temp, oldGrid := s.grid }

/-- One simulation tick as performed in `loop` (source lines 276-277):
`swapGrids(grid, oldGrid); stepSimulation(grid, oldGrid);`. -/
def tick (s : Buffers) : Option Buffers :=
  stepSimulation (swapGrids s)

/-! ## `clearGrid` and the event handlers (source lines 154-228) -/

/-- Source lines 154-163, `void clearGrid(bool** grid)`. -/
def clearGrid (grid : Grid) : Option Grid :=
  (List.range 160).foldlM (fun (grid : Grid) (x : Nat) =>
    (List.range 120).foldlM (fun (grid : Grid) (y : Nat) =>
      grid.write (x : Int) (y : Int) false) grid) grid

/-- Source lines 186-190, `enum MouseState`. -/
inductive MouseState where
  | None
  | Add
  | Remove
  deriving DecidableEq, Repr

/-- The global flags of the program (source lines 165, 166 and 191). -/
structure Globals where
  quit : Bool
  paused : Bool
  currentState : MouseState

/-- The key symbols `handleKeyDownEvent` distinguishes. -/
inductive Key where
  | SDLK_SPACE
  | SDLK_ESCAPE
  | SDLK_c
  | unbound
  deriving DecidableEq, Repr

/-- The mouse buttons `handleMouseDownEvent` distinguishes. -/
inductive Button where
  | SDL_BUTTON_LEFT
  | SDL_BUTTON_RIGHT
  | unbound
  deriving DecidableEq, Repr

/-- Source lines 168-184, `handleKeyDownEvent(e, grid)`, on the globals and the one
buffer it is given; the calls into SDL only touch the screen. -/
def handleKeyDownEvent (sym : Key) (gl : Globals) (grid : Grid) :
    Option (Globals × Grid) :=
  match sym with
  | .SDLK_SPACE => some ({ gl with paused := !gl.paused }, grid)
  | .SDLK_ESCAPE => some ({ gl with quit := true }, grid)
  | .SDLK_c => do
      let cleared ← clearGrid grid
      pure (gl, cleared)
  | .unbound => some (gl, grid)

/-- Source lines 193-196, `handleMouseUpEvent`. -/
def handleMouseUpEvent (gl : Globals) : Globals :=
  { gl with currentState := MouseState.None }

/-- Source lines 198-218, `handleMouseMoveEvent(event, grid)`; `(mx, my)` is the pixel
position that `SDL_GetMouseState` reports, `/=` is C's truncating division, and the
drawing calls only touch the screen. -/
def handleMouseMoveEvent (mx my : Int) (gl : Globals) (grid : Grid) : Option Grid :=
  let x := mx.tdiv CELL_SIZE
  let y := my.tdiv CELL_SIZE
  if gl.currentState = MouseState.Add then
    grid.write x y true
  else if gl.currentState = MouseState.Remove then
    grid.write x y false
  else
    some grid

/-- Source lines 220-228, `handleMouseDownEvent(event, grid)`. -/
def handleMouseDownEvent (button : Button) (mx my : Int) (gl : Globals) (grid : Grid) :
    Option (Globals × Grid) := do
  let gl1 : Globals :=
    if button = Button.SDL_BUTTON_LEFT then { gl with currentState := MouseState.Add }
    else if button = Button.SDL_BUTTON_RIGHT then
      { gl with currentState := MouseState.Remove }
    else gl
  let written ← handleMouseMoveEvent mx my gl1 grid
  pure (gl1, written)

/-- The events the `switch` of `loop` distinguishes (source lines 241-260). -/
inductive Event where
  | SDL_QUIT
  | SDL_KEYDOWN (sym : Key)
  | SDL_MOUSEBUTTONDOWN (button : Button)
  | SDL_MOUSEBUTTONUP
  | SDL_MOUSEMOTION
  | unhandled

/-- The whole state `loop` works on: its two buffer arguments and the globals. -/
structure World where
  buffers : Buffers
  globals : Globals

/-- The `switch (e.type)` of `loop` (source lines 241-260) for one polled event, with
the mouse position `(mx, my)` that `SDL_GetMouseState` would report.  Every handler is
passed `grid` only. -/
def dispatchEvent (e : Event) (mx my : Int) (w : World) : Option World :=
  match e with
  | .SDL_QUIT => some { w with globals := { w.globals with quit := true } }
  | .SDL_KEYDOWN sym => do
      let r ← handleKeyDownEvent sym w.globals w.buffers.grid
      pure { buffers := { grid := r.2, oldGrid := w.buffers.oldGrid }, globals := r.1 }
  | .SDL_MOUSEBUTTONDOWN button => do
      let r ← handleMouseDownEvent button mx my w.globals w.buffers.grid
      pure { buffers := { grid := r.2, oldGrid := w.buffers.oldGrid }, globals := r.1 }
  | .SDL_MOUSEBUTTONUP => some { w with globals := handleMouseUpEvent w.globals }
  | .SDL_MOUSEMOTION => do
      let written ← handleMouseMoveEvent mx my w.globals w.buffers.grid
      pure { w with buffers := { grid := written, oldGrid := w.buffers.oldGrid } }
  | .unhandled => some w

/-! ## Specification-side definitions -/

/-- The eight offsets of the Moore neighbourhood, the centre `(0, 0)` left out. -/
def neighbourOffsets : List (Int × Int) :=
  [(-1, -1), (-1, 0), (-1, 1), (0, -1), (0, 1), (1, -1), (1, 0), (1, 1)]

/-- Number of offsets `(dx, dy)` of the Moore neighbourhood for which the cell at column
`(x + dx) mod 160`, row `(y + dy) mod 120` is alive. -/
def liveNeighbours (x y : Int) (grid : Grid) : Int :=
  ((neighbourOffsets.filter (fun d => grid.torus (x + d.1) (y + d.2))).length : Int)

/-- The B3/S23 successor of a generation: a cell is alive in it iff it has exactly three
live neighbours, or exactly two and is alive. -/
def nextGeneration (old : Grid) : Grid :=
  Grid.ofFn fun i j =>
    decide (liveNeighbours (i.val : Int) (j.val : Int) old = 3) ||
      (decide (liveNeighbours (i.val : Int) (j.val : Int) old = 2) && old.cell i j)

/-- The coordinates of the grid in the order `stepSimulation` visits them. -/
def rasterOrder : List (Nat × Nat) :=
  (List.range 160).flatMap (fun x => (List.range 120).map (fun y => (x, y)))

/-- The loop body of `stepSimulation` run over the cells of `cells`, in that order. -/
def runCells (cells : List (Nat × Nat)) (s : Buffers) : Option Buffers :=
  cells.foldlM (fun (s : Buffers) (c : Nat × Nat) => stepCell (c.1 : Int) (c.2 : Int) s) s

/-- The all-dead buffer. -/
def deadGrid : Grid := Grid.ofFn fun _ _ => false

/-- The all-alive buffer. -/
def fullGrid : Grid := Grid.ofFn fun _ _ => true

/-- Setting cell `(x, y)` to `v` through the interactive edit path: the mouse is at the
top-left pixel of the cell, in `Add` mode for `true` and in `Remove` mode for `false`. -/
def editCell (x y : Int) (v : Bool) (grid : Grid) : Option Grid :=
  handleMouseMoveEvent (x * CELL_SIZE) (y * CELL_SIZE)
    { quit := false, paused := false,
      currentState := if v then MouseState.Add else MouseState.Remove } grid

/-- The clear command: the key `c` goes down while `loop` polls events. -/
def clearCommand (w : World) : Option World :=
  dispatchEvent (Event.SDL_KEYDOWN Key.SDLK_c) 0 0 w

/-! ## `initGrid` and `draw` (source lines 39-49 and 132-145) -/

/-- The body of the inner loop of `initGrid` (source lines 45-46) at cell `(i, j)`.
The random source is a stream `draws` of the values `rand()` returns, together with the
number of values drawn so far; the `int` `rand() % 2` (truncating remainder) converts
to `bool` as "not zero". -/
def initCell (draws : Nat → Int) (i j : Int) (st : Buffers × Nat) :
    Option (Buffers × Nat) := do
  let value := draws st.2
  let g ← st.1.grid.write i j (decide (value.tmod 2 ≠ 0))
  let o ← st.1.oldGrid.write i j false
  pure ({ grid := g, oldGrid := o }, st.2 + 1)

/-- Source lines 39-49, `void initGrid(bool** grid, bool** oldGrid)`, started after
`drawn` values have been drawn from `draws`; returns the buffers and the number of
values drawn at the end. -/
def initGrid (draws : Nat → Int) (drawn : Nat) (s : Buffers) : Option (Buffers × Nat) :=
  (List.range 160).foldlM (fun (st : Buffers × Nat) (i : Nat) =>
    (List.range 120).foldlM (fun (st : Buffers × Nat) (j : Nat) =>
      initCell draws (i : Int) (j : Int) st) st) (s, drawn)

/-- The two drawing calls `draw` makes, as events; the colour of a new cell (three more
calls of `rand()`) is left out. -/
inductive DrawEvent where
  | drawNewCell (x y : Int)
  | clearCell (x y : Int)
  deriving DecidableEq, Repr

/-- The body of the inner loop of `draw` (source lines 138-142) at cell `(x, y)`: the
buffers are only read, the events emitted so far are extended.  The right operand of
each `&&` is evaluated only when the left one is true. -/
def drawAt (x y : Int) (st : Buffers × List DrawEvent) :
    Option (Buffers × List DrawEvent) := do
  let g ← st.1.grid.read x y
  let isNew ← if g then (do let o ← st.1.oldGrid.read x y; pure (!o)) else pure false
  let events1 := if isNew then st.2 ++ [DrawEvent.drawNewCell x y] else st.2
  let g' ← st.1.grid.read x y
  let isGone ← if !g' then st.1.oldGrid.read x y else pure false
  let events2 := if isGone then events1 ++ [DrawEvent.clearCell x y] else events1
  pure (st.1, events2)

/-- Source lines 132-145, `void draw(bool** grid, bool** oldGrid)`: returns the buffers
as `draw` leaves them and the events it emitted, in order. -/
def draw (s : Buffers) : Option (Buffers × List DrawEvent) :=
  (List.range 160).foldlM (fun (st : Buffers × List DrawEvent) (x : Nat) =>
    (List.range 120).foldlM (fun (st : Buffers × List DrawEvent) (y : Nat) =>
      drawAt (x : Int) (y : Int) st) st) (s, [])

/-- The events `draw` is to emit for cell `c`: a new-cell event when the cell is alive in
`grid` and dead in `oldGrid`, a clear event when it is dead in `grid` and alive in
`oldGrid`, nothing otherwise. -/
def changeEvents (s : Buffers) (c : Nat × Nat) : List DrawEvent :=
  (if s.grid.torus c.1 c.2 && !s.oldGrid.torus c.1 c.2 then
      [DrawEvent.drawNewCell c.1 c.2] else []) ++
    (if !s.grid.torus c.1 c.2 && s.oldGrid.torus c.1 c.2 then
      [DrawEvent.clearCell c.1 c.2] else [])

/-! ## Specification-side definitions for patterns -/

/-- Repeated ticks of `loop`: `n` times `swapGrids` then `stepSimulation`. -/
def ticks : Nat → Buffers → Option Buffers
  | 0, s => some s
  | n + 1, s => (tick s).bind (ticks n)

/-- The buffer whose live cells are exactly the cells the listed integer coordinates
wrap to; every other cell is dead. -/
def gridOf (cells : List (Int × Int)) : Grid :=
  Grid.ofFn fun i j =>
    decide (∃ c ∈ cells, c.1 % 160 = (i.val : Int) ∧ c.2 % 120 = (j.val : Int))

/-- The four cells of a block with top-left cell `(a, b)`. -/
def blockCells (a b : Int) : List (Int × Int) :=
  [(a, b), (a + 1, b), (a, b + 1), (a + 1, b + 1)]

/-- The five cells of a glider at offset `(a, b)`. -/
def gliderCells (a b : Int) : List (Int × Int) :=
  [(a + 1, b), (a + 2, b + 1), (a, b + 2), (a + 1, b + 2), (a + 2, b + 2)]

/-- The three cells of a diagonal line starting at `(a, b)`. -/
def diagonalCells (a b : Int) : List (Int × Int) :=
  [(a, b), (a + 1, b + 1), (a + 2, b + 2)]

/-- The toroidal shift of a buffer by `(dx, dy)`: cell `(x, y)` of the shifted buffer is
cell `(x - dx, y - dy)` of the buffer, wrapped. -/
def shiftGrid (dx dy : Int) (grid : Grid) : Grid :=
  Grid.ofFn fun i j => grid.torus ((i.val : Int) - dx) ((j.val : Int) - dy)

/-- The column `x` relative to the column `a`, taken modulo 160 in `[-60, 100)`. -/
def relX (a x : Int) : Int := (x - a + 60) % 160 - 60

/-- The row `y` relative to the row `b`, taken modulo 120 in `[-60, 60)`. -/
def relY (b y : Int) : Int := (y - b + 60) % 120 - 60

/-- The cells of the list lie in the window `[-n, n) x [-n, n)`. -/
def InWindow (n : Int) (cells : List (Int × Int)) : Prop :=
  ∀ c ∈ cells, (-n ≤ c.1 ∧ c.1 < n) ∧ (-n ≤ c.2 ∧ c.2 < n)

/-- A list of cells moved by `(a, b)`. -/
def translate (a b : Int) (cells : List (Int × Int)) : List (Int × Int) :=
  cells.map fun c => (c.1 + a, c.2 + b)

/-- Number of live Moore neighbours of `p` on the unbounded plane, `cells` being the live
cells. -/
def planeCount (cells : List (Int × Int)) (p : Int × Int) : Nat :=
  (neighbourOffsets.filter fun d => decide ((p.1 + d.1, p.2 + d.2) ∈ cells)).length

/-- The B3/S23 rule at `p` on the unbounded plane. -/
def planeRule (cells : List (Int × Int)) (p : Int × Int) : Bool :=
  decide (planeCount cells p = 3) || (decide (planeCount cells p = 2) && decide (p ∈ cells))

/-- The live cells and their Moore neighbours: the only cells that can be alive in the
next generation. -/
def planeCandidates (cells : List (Int × Int)) : List (Int × Int) :=
  cells.flatMap fun c =>
    [(c.1 - 1, c.2 - 1), (c.1 - 1, c.2), (c.1 - 1, c.2 + 1), (c.1, c.2 - 1), (c.1, c.2),
      (c.1, c.2 + 1), (c.1 + 1, c.2 - 1), (c.1 + 1, c.2), (c.1 + 1, c.2 + 1)]

/-- One B3/S23 generation on the unbounded plane. -/
def planeStep (cells : List (Int × Int)) : List (Int × Int) :=
  (planeCandidates cells).filter (planeRule cells)

/-! ## Basic facts -/

theorem vector_get_set {α : Type} {n : Nat} (v : Batteries.Vector α n) (i k : Fin n)
    (x : α) : (v.set i x).get k = if k = i then x else v.get k := by
  simp only [Batteries.Vector.set, Batteries.Vector.get, Array.get_eq_getElem,
    Fin.coe_cast, Array.getElem_set]
  by_cases h : k = i
  · subst h
    simp
  · have h' : ¬ i.val = k.val := fun e => h (Fin.ext e.symm)
    simp [h, h']

theorem vector_get_ofFn {α : Type} {n : Nat} (f : Fin n → α) (i : Fin n) :
    (Batteries.Vector.ofFn f).get i = f i := by
  simp only [Batteries.Vector.ofFn, Batteries.Vector.get, Array.get_eq_getElem,
    Fin.coe_cast, Array.getElem_ofFn]

theorem Grid.ext_cell {g g' : Grid} (h : ∀ i j, g.cell i j = g'.cell i j) : g = g' := by
  cases g with
  | mk c =>
    cases g' with
    | mk c' =>
      congr 1
      refine Batteries.Vector.ext (fun i hi => ?_)
      refine Batteries.Vector.ext (fun j hj => ?_)
      exact h ⟨i, hi⟩ ⟨j, hj⟩

theorem Grid.cell_ofFn (f : Fin 160 → Fin 120 → Bool) (i : Fin 160) (j : Fin 120) :
    (Grid.ofFn f).cell i j = f i j := by
  simp only [Grid.cell, Grid.ofFn, vector_get_ofFn]

theorem Grid.cell_set (grid : Grid) (i a : Fin 160) (j b : Fin 120) (v : Bool) :
    (grid.set i j v).cell a b = if a = i ∧ b = j then v else grid.cell a b := by
  simp only [Grid.cell, Grid.set, vector_get_set]
  by_cases ha : a = i
  · subst ha
    by_cases hb : b = j
    · simp [hb, vector_get_set]
    · simp [hb, vector_get_set]
  · simp [ha]

theorem isAlive_unfold (x y : Int) (grid : Grid) :
    isAlive x y grid =
      if x ≥ 160 then isAlive (x - 160) y grid
      else if y ≥ 120 then isAlive x (y - 120) grid
      else if x < 0 then isAlive (x + 160) y grid
      else if y < 0 then isAlive x (y + 120) grid
      else grid.read x y := by
  rw [isAlive]
  simp only [GRID_WIDTH, GRID_HEIGHT]

/-- The arguments of a recursive call of `isAlive` are representable as `int` whenever
the arguments of the call are: `x - GRID_WIDTH` and `x + GRID_WIDTH` do not overflow. -/
theorem wrapStep_in_int_range (x y x' y' : Int)
    (hx : INT_MIN ≤ x ∧ x ≤ INT_MAX) (hy : INT_MIN ≤ y ∧ y ≤ INT_MAX)
    (h : wrapStep x y = some (x', y')) :
    (INT_MIN ≤ x' ∧ x' ≤ INT_MAX) ∧ (INT_MIN ≤ y' ∧ y' ≤ INT_MAX) := by
  simp only [wrapStep, GRID_WIDTH, GRID_HEIGHT] at h
  simp only [INT_MIN, INT_MAX] at *
  split_ifs at h <;> simp only [Option.some.injEq, Prod.mk.injEq] at h <;> omega

/-- The subscripts `x - 1 + i` that `calcNeighbours` passes to `isAlive` are computed
without overflow for every `x` strictly between `INT_MIN` and `INT_MAX`. -/
theorem calcNeighbours_args_in_int_range (x : Int) (i : Nat) (hi : i < 3)
    (hx : INT_MIN < x ∧ x < INT_MAX) :
    (INT_MIN ≤ x - 1 ∧ x - 1 ≤ INT_MAX) ∧
      (INT_MIN ≤ x - 1 + (i : Int) ∧ x - 1 + (i : Int) ≤ INT_MAX) := by
  simp only [INT_MIN, INT_MAX] at *
  omega

theorem Grid.torus_congr (grid : Grid) {x x' y y' : Int}
    (hx : x % 160 = x' % 160) (hy : y % 120 = y' % 120) :
    grid.torus x y = grid.torus x' y' := by
  simp only [Grid.torus, hx, hy]

theorem Grid.read_eq_torus (grid : Grid) {x y : Int}
    (hx0 : 0 ≤ x) (hx1 : x < 160) (hy0 : 0 ≤ y) (hy1 : y < 120) :
    grid.read x y = some (grid.torus x y) := by
  have hx : x % 160 = x := Int.emod_eq_of_lt hx0 hx1
  have hy : y % 120 = y := Int.emod_eq_of_lt hy0 hy1
  simp only [Grid.read, Grid.torus, hx, hy]
  rw [dif_pos ⟨hx0, hx1, hy0, hy1⟩]

theorem Grid.torus_coe (grid : Grid) (i : Fin 160) (j : Fin 120) :
    grid.torus (i.val : Int) (j.val : Int) = grid.cell i j := by
  have hi : ((i.val : Int) % 160).toNat = i.val := by omega
  have hj : ((j.val : Int) % 120).toNat = j.val := by omega
  simp only [Grid.torus, hi, hj]

theorem isAlive_eq_aux (grid : Grid) :
    ∀ (n : Nat) (x y : Int), wrapMeasure x y = n →
      isAlive x y grid = some (grid.torus x y) := by
  intro n
  induction n using Nat.strong_induction_on with
  | _ n ih =>
    intro x y hn
    rw [isAlive_unfold]
    simp only [wrapMeasure, wrapDist, GRID_WIDTH, GRID_HEIGHT] at hn
    split_ifs with h1 h2 h3 h4
    · rw [ih (wrapMeasure (x - 160) y) _ (x - 160) y rfl]
      · exact congrArg some (grid.torus_congr (by omega) rfl)
      · simp only [wrapMeasure, wrapDist, GRID_WIDTH, GRID_HEIGHT]
        split_ifs at hn ⊢ <;> omega
    · rw [ih (wrapMeasure x (y - 120)) _ x (y - 120) rfl]
      · exact congrArg some (grid.torus_congr rfl (by omega))
      · simp only [wrapMeasure, wrapDist, GRID_WIDTH, GRID_HEIGHT]
        split_ifs at hn ⊢ <;> omega
    · rw [ih (wrapMeasure (x + 160) y) _ (x + 160) y rfl]
      · exact congrArg some (grid.torus_congr (by omega) rfl)
      · simp only [wrapMeasure, wrapDist, GRID_WIDTH, GRID_HEIGHT]
        split_ifs at hn ⊢ <;> omega
    · rw [ih (wrapMeasure x (y + 120)) _ x (y + 120) rfl]
      · exact congrArg some (grid.torus_congr rfl (by omega))
      · simp only [wrapMeasure, wrapDist, GRID_WIDTH, GRID_HEIGHT]
        split_ifs at hn ⊢ <;> omega
    · exact grid.read_eq_torus (by omega) (by omega) (by omega) (by omega)

/-- The recursion of `isAlive` ends in the cell the coordinate resolves to. -/
theorem isAlive_eq_torus (x y : Int) (grid : Grid) :
    isAlive x y grid = some (grid.torus x y) :=
  isAlive_eq_aux grid _ x y rfl

theorem ite_succ_eq_add_toInt (a : Bool) (n : Int) :
    (if a = true then n + 1 else n) = n + (if a = true then 1 else 0) := by
  cases a <;> simp

theorem filter_length_eq_sum {α : Type} (p : α → Bool) (l : List α) :
    ((l.filter p).length : Int) = (l.map (fun d => if p d = true then (1 : Int) else 0)).sum := by
  induction l with
  | nil => rfl
  | cons a l ih =>
    rw [List.filter_cons, List.map_cons, List.sum_cons, ← ih]
    cases p a
    · simp
    · simp
      omega

theorem intResult_eq_some {v : Int} (h : INT_MIN ≤ v ∧ v ≤ INT_MAX) :
    intResult v = some v := by
  rw [intResult, if_pos h]

theorem intResult_eq_none {v : Int} (h : ¬ (INT_MIN ≤ v ∧ v ≤ INT_MAX)) :
    intResult v = none := by
  rw [intResult, if_neg h]

/-- The four values of `x - 1 + i` that `calcNeighbours` computes are representable when
`x` lies strictly between `INT_MIN` and `INT_MAX`. -/
theorem intResult_window {v : Int} (h : INT_MIN < v ∧ v < INT_MAX) :
    intResult (v - 1) = some (v - 1) ∧ intResult (v + -1) = some (v + -1) ∧
      intResult (v + 0) = some (v + 0) ∧ intResult (v + 1) = some (v + 1) := by
  simp only [INT_MIN, INT_MAX] at h
  refine ⟨intResult_eq_some ?_, intResult_eq_some ?_, intResult_eq_some ?_,
    intResult_eq_some ?_⟩ <;> simp only [INT_MIN, INT_MAX] <;> omega

theorem calcNeighbours_eq (x y : Int) (grid : Grid)
    (hx : INT_MIN < x ∧ x < INT_MAX) (hy : INT_MIN < y ∧ y < INT_MAX) :
    calcNeighbours x y grid = some (liveNeighbours x y grid) := by
  have h3 : List.range 3 = [0, 1, 2] := rfl
  have e0 : ∀ v : Int, v - 1 + ((0 : Nat) : Int) = v + (-1) := fun v => by omega
  have e1 : ∀ v : Int, v - 1 + ((1 : Nat) : Int) = v + 0 := fun v => by omega
  have e2 : ∀ v : Int, v - 1 + ((2 : Nat) : Int) = v + 1 := fun v => by omega
  have wx := intResult_window hx
  have wy := intResult_window hy
  rw [liveNeighbours, filter_length_eq_sum]
  simp only [calcNeighbours, neighbourOffsets, h3, List.foldlM_cons, List.foldlM_nil,
    wx.1, wx.2.1, wx.2.2.1, wx.2.2.2, wy.1, wy.2.1, wy.2.2.1, wy.2.2.2,
    isAlive_eq_torus, e0, e1, e2, ite_succ_eq_add_toInt, Option.pure_def,
    Option.bind_eq_bind, Option.some_bind, List.map_cons, List.map_nil, List.sum_cons,
    List.sum_nil]
  generalize (if grid.torus (x + -1) (y + -1) = true then (1 : Int) else 0) = a1
  generalize (if grid.torus (x + -1) (y + 0) = true then (1 : Int) else 0) = a2
  generalize (if grid.torus (x + -1) (y + 1) = true then (1 : Int) else 0) = a3
  generalize (if grid.torus (x + 0) (y + -1) = true then (1 : Int) else 0) = a4
  generalize (if grid.torus (x + 0) (y + 0) = true then (1 : Int) else 0) = a5
  generalize (if grid.torus (x + 0) (y + 1) = true then (1 : Int) else 0) = a6
  generalize (if grid.torus (x + 1) (y + -1) = true then (1 : Int) else 0) = a7
  generalize (if grid.torus (x + 1) (y + 0) = true then (1 : Int) else 0) = a8
  generalize (if grid.torus (x + 1) (y + 1) = true then (1 : Int) else 0) = a9
  simp
  omega

theorem int_window_of_lt {x n : Nat} (h : x < n) (hn : n ≤ 160) :
    INT_MIN < (x : Int) ∧ (x : Int) < INT_MAX := by
  simp only [INT_MIN, INT_MAX]
  omega

/-- At the cells `stepSimulation` visits, `calcNeighbours` computes without overflow. -/
theorem calcNeighbours_eq_cell {x y : Nat} (hx : x < 160) (hy : y < 120) (grid : Grid) :
    calcNeighbours (x : Int) (y : Int) grid =
      some (liveNeighbours (x : Int) (y : Int) grid) :=
  calcNeighbours_eq _ _ grid (int_window_of_lt hx (Nat.le_refl _))
    (int_window_of_lt hy (by decide))

/-- At `x = INT_MIN` the first subtraction `x - 1` already overflows. -/
theorem calcNeighbours_int_min (y : Int) (grid : Grid) :
    calcNeighbours INT_MIN y grid = none := by
  have h3 : List.range 3 = [0, 1, 2] := rfl
  have hn : intResult (INT_MIN - 1) = none :=
    intResult_eq_none (by simp only [INT_MIN, INT_MAX]; omega)
  simp [calcNeighbours, h3, hn]

/-- At `x = INT_MAX` the addition `(x - 1) + 2` of the third column overflows. -/
theorem calcNeighbours_int_max_x (y : Int) (grid : Grid)
    (hy : INT_MIN < y ∧ y < INT_MAX) :
    calcNeighbours INT_MAX y grid = none := by
  have h3 : List.range 3 = [0, 1, 2] := rfl
  have wy := intResult_window hy
  have e0 : ∀ v : Int, v - 1 + ((0 : Nat) : Int) = v + (-1) := fun v => by omega
  have e1 : ∀ v : Int, v - 1 + ((1 : Nat) : Int) = v + 0 := fun v => by omega
  have e2 : ∀ v : Int, v - 1 + ((2 : Nat) : Int) = v + 1 := fun v => by omega
  have a1 : intResult (INT_MAX - 1) = some (INT_MAX - 1) :=
    intResult_eq_some (by simp only [INT_MIN, INT_MAX]; omega)
  have a2 : intResult (INT_MAX + -1) = some (INT_MAX + -1) :=
    intResult_eq_some (by simp only [INT_MIN, INT_MAX]; omega)
  have a3 : intResult (INT_MAX + 0) = some (INT_MAX + 0) :=
    intResult_eq_some (by simp only [INT_MIN, INT_MAX]; omega)
  have a4 : intResult (INT_MAX + 1) = none :=
    intResult_eq_none (by simp only [INT_MIN, INT_MAX]; omega)
  simp only [calcNeighbours, h3, List.foldlM_cons, List.foldlM_nil, a1, a2, a3, a4,
    wy.1, wy.2.1, wy.2.2.1, wy.2.2.2, isAlive_eq_torus, e0, e1, e2, Option.pure_def,
    Option.bind_eq_bind, Option.some_bind, Option.none_bind]
  simp

/-- At `y = INT_MAX` the addition `(y - 1) + 2` of the third row overflows. -/
theorem calcNeighbours_int_max_y (x : Int) (grid : Grid)
    (hx : INT_MIN < x ∧ x < INT_MAX) :
    calcNeighbours x INT_MAX grid = none := by
  have h3 : List.range 3 = [0, 1, 2] := rfl
  have wx := intResult_window hx
  have e0 : ∀ v : Int, v - 1 + ((0 : Nat) : Int) = v + (-1) := fun v => by omega
  have e1 : ∀ v : Int, v - 1 + ((1 : Nat) : Int) = v + 0 := fun v => by omega
  have e2 : ∀ v : Int, v - 1 + ((2 : Nat) : Int) = v + 1 := fun v => by omega
  have a1 : intResult (INT_MAX - 1) = some (INT_MAX - 1) :=
    intResult_eq_some (by simp only [INT_MIN, INT_MAX]; omega)
  have a2 : intResult (INT_MAX + -1) = some (INT_MAX + -1) :=
    intResult_eq_some (by simp only [INT_MIN, INT_MAX]; omega)
  have a3 : intResult (INT_MAX + 0) = some (INT_MAX + 0) :=
    intResult_eq_some (by simp only [INT_MIN, INT_MAX]; omega)
  have a4 : intResult (INT_MAX + 1) = none :=
    intResult_eq_none (by simp only [INT_MIN, INT_MAX]; omega)
  simp only [calcNeighbours, h3, List.foldlM_cons, List.foldlM_nil, a1, a2, a3, a4,
    wx.1, wx.2.1, wx.2.2.1, wx.2.2.2, isAlive_eq_torus, e0, e1, e2, Option.pure_def,
    Option.bind_eq_bind, Option.some_bind, Option.none_bind]
  simp

theorem int_window_zero : INT_MIN < (0 : Int) ∧ (0 : Int) < INT_MAX := by
  decide

theorem Grid.write_coe (grid : Grid) {x y : Nat} (hx : x < 160) (hy : y < 120) (v : Bool) :
    grid.write (x : Int) (y : Int) v = some (grid.set ⟨x, hx⟩ ⟨y, hy⟩ v) := by
  have h : 0 ≤ (x : Int) ∧ (x : Int) < 160 ∧ 0 ≤ (y : Int) ∧ (y : Int) < 120 := by omega
  simp only [Grid.write, dif_pos h, Int.toNat_ofNat]

theorem Grid.set_set (grid : Grid) (i : Fin 160) (j : Fin 120) (a b : Bool) :
    (grid.set i j a).set i j b = grid.set i j b := by
  apply Grid.ext_cell
  intro p q
  simp only [Grid.cell_set]
  split_ifs <;> rfl

theorem stepCell_eq {x y : Nat} (hx : x < 160) (hy : y < 120) (s : Buffers) :
    stepCell (x : Int) (y : Int) s =
      some { grid := s.grid.set ⟨x, hx⟩ ⟨y, hy⟩
               ((nextGeneration s.oldGrid).cell ⟨x, hx⟩ ⟨y, hy⟩),
             oldGrid := s.oldGrid } := by
  have ht : s.oldGrid.torus (x : Int) (y : Int) = s.oldGrid.cell ⟨x, hx⟩ ⟨y, hy⟩ :=
    s.oldGrid.torus_coe ⟨x, hx⟩ ⟨y, hy⟩
  simp only [stepCell, Grid.write_coe _ hx hy, calcNeighbours_eq_cell hx hy,
    isAlive_eq_torus, ht,
    nextGeneration, Grid.cell_ofFn, Option.pure_def, Option.bind_eq_bind, Option.some_bind]
  by_cases h3 : liveNeighbours (x : Int) (y : Int) s.oldGrid = 3
  · have h2 : ¬ liveNeighbours (x : Int) (y : Int) s.oldGrid = 2 := by omega
    simp [h3, Grid.write_coe _ hx hy, Grid.set_set]
  · by_cases h2 : liveNeighbours (x : Int) (y : Int) s.oldGrid = 2
    · cases hc : s.oldGrid.cell ⟨x, hx⟩ ⟨y, hy⟩ <;>
        simp [h2, hc, Grid.write_coe _ hx hy, Grid.set_set]
    · simp [h2, h3, Grid.write_coe _ hx hy, Grid.set_set]

/-- Writing the cells of `cells` one after the other, cell `c` with the value `val` has
at `c`: the cells of the list hold `val`, the others are kept. -/
theorem set_cells_eq (val : Fin 160 → Fin 120 → Bool) (grid : Grid) (c : Nat × Nat)
    (cells : List (Nat × Nat)) (hc : c.1 < 160 ∧ c.2 < 120) :
    Grid.ofFn (fun i j =>
        if (i.val, j.val) ∈ cells then val i j
        else (grid.set ⟨c.1, hc.1⟩ ⟨c.2, hc.2⟩ (val ⟨c.1, hc.1⟩ ⟨c.2, hc.2⟩)).cell i j) =
      Grid.ofFn (fun i j => if (i.val, j.val) ∈ c :: cells then val i j else grid.cell i j) := by
  apply Grid.ext_cell
  intro i j
  rw [Grid.cell_ofFn, Grid.cell_ofFn, Grid.cell_set]
  by_cases hm : (i.val, j.val) ∈ cells
  · rw [if_pos hm, if_pos (List.mem_cons_of_mem _ hm)]
  · by_cases he : (i.val, j.val) = c
    · have hi : i = ⟨c.1, hc.1⟩ := Fin.ext (congrArg Prod.fst he)
      have hj : j = ⟨c.2, hc.2⟩ := Fin.ext (congrArg Prod.snd he)
      have hmem : (i.val, j.val) ∈ c :: cells := by
        rw [he]
        exact List.mem_cons_self _ _
      rw [if_neg hm, if_pos hmem, if_pos ⟨hi, hj⟩, hi, hj]
    · have hne : ¬ (i = ⟨c.1, hc.1⟩ ∧ j = ⟨c.2, hc.2⟩) := by
        rintro ⟨hi, hj⟩
        exact he (by rw [hi, hj])
      have hmem : ¬ (i.val, j.val) ∈ c :: cells := by
        intro hcon
        rcases List.mem_cons.1 hcon with h1 | h1
        · exact he h1
        · exact hm h1
      rw [if_neg hm, if_neg hmem, if_neg hne]

theorem runCells_eq (cells : List (Nat × Nat)) :
    ∀ (s : Buffers), (∀ c ∈ cells, c.1 < 160 ∧ c.2 < 120) →
      runCells cells s =
        some { grid := Grid.ofFn (fun i j =>
                 if (i.val, j.val) ∈ cells then (nextGeneration s.oldGrid).cell i j
                 else s.grid.cell i j),
               oldGrid := s.oldGrid } := by
  induction cells with
  | nil =>
    intro s _
    have hg : Grid.ofFn (fun i j => s.grid.cell i j) = s.grid :=
      Grid.ext_cell (fun i j => Grid.cell_ofFn _ i j)
    simp [runCells, hg]
  | cons c cells ih =>
    intro s h
    have hc := h c (List.mem_cons_self _ _)
    have hrest : ∀ d ∈ cells, d.1 < 160 ∧ d.2 < 120 :=
      fun d hd => h d (List.mem_cons_of_mem _ hd)
    have ih' := ih { grid := s.grid.set ⟨c.1, hc.1⟩ ⟨c.2, hc.2⟩
                       ((nextGeneration s.oldGrid).cell ⟨c.1, hc.1⟩ ⟨c.2, hc.2⟩),
                     oldGrid := s.oldGrid } hrest
    simp only [runCells] at ih' ⊢
    rw [List.foldlM_cons, stepCell_eq hc.1 hc.2, Option.bind_eq_bind, Option.some_bind, ih',
      set_cells_eq (fun i j => (nextGeneration s.oldGrid).cell i j) s.grid c cells hc]

theorem foldlM_flatMap {α β σ : Type} (f : σ → β → Option σ) (g : α → List β)
    (l : List α) :
    ∀ s : σ, (l.flatMap g).foldlM f s = l.foldlM (fun s a => (g a).foldlM f s) s := by
  induction l with
  | nil => intro s; rfl
  | cons a l ih =>
    intro s
    rw [List.flatMap_cons, List.foldlM_append, List.foldlM_cons]
    congr 1
    funext t
    exact ih t

theorem mem_rasterOrder (a b : Nat) : (a, b) ∈ rasterOrder ↔ a < 160 ∧ b < 120 := by
  simp [rasterOrder, List.mem_flatMap, List.mem_map, List.mem_range]

/-- Once every cell of the grid is in the list, the written buffer is `val` everywhere. -/
theorem ofFn_all_cells (val : Grid) (grid : Grid) (cells : List (Nat × Nat))
    (h : ∀ a b : Nat, a < 160 → b < 120 → (a, b) ∈ cells) :
    Grid.ofFn (fun i j => if (i.val, j.val) ∈ cells then val.cell i j else grid.cell i j) =
      val := by
  apply Grid.ext_cell
  intro i j
  rw [Grid.cell_ofFn, if_pos (h i.val j.val i.isLt j.isLt)]

theorem stepSimulation_eq_runCells (s : Buffers) :
    stepSimulation s = runCells rasterOrder s := by
  simp only [stepSimulation, runCells, rasterOrder, foldlM_flatMap, List.foldlM_map]

theorem stepSimulation_eq (s : Buffers) :
    stepSimulation s = some { grid := nextGeneration s.oldGrid, oldGrid := s.oldGrid } := by
  rw [stepSimulation_eq_runCells, runCells_eq rasterOrder s
    (fun c hc => (mem_rasterOrder c.1 c.2).1 hc),
    ofFn_all_cells _ _ _ (fun a b ha hb => (mem_rasterOrder a b).2 ⟨ha, hb⟩)]

theorem foldlM_write_false (cells : List (Nat × Nat)) :
    ∀ (grid : Grid), (∀ c ∈ cells, c.1 < 160 ∧ c.2 < 120) →
      cells.foldlM (fun (g : Grid) (c : Nat × Nat) => g.write (c.1 : Int) (c.2 : Int) false)
          grid =
        some (Grid.ofFn fun i j =>
          if (i.val, j.val) ∈ cells then deadGrid.cell i j else grid.cell i j) := by
  induction cells with
  | nil =>
    intro grid _
    have hg : Grid.ofFn (fun i j => grid.cell i j) = grid :=
      Grid.ext_cell (fun i j => Grid.cell_ofFn _ i j)
    simp [hg]
  | cons c cells ih =>
    intro grid h
    have hc := h c (List.mem_cons_self _ _)
    have hrest : ∀ d ∈ cells, d.1 < 160 ∧ d.2 < 120 :=
      fun d hd => h d (List.mem_cons_of_mem _ hd)
    have hd : false = deadGrid.cell ⟨c.1, hc.1⟩ ⟨c.2, hc.2⟩ := by
      rw [deadGrid, Grid.cell_ofFn]
    rw [List.foldlM_cons, Grid.write_coe _ hc.1 hc.2, Option.bind_eq_bind,
      Option.some_bind, ih _ hrest, hd,
      set_cells_eq (fun i j => deadGrid.cell i j) grid c cells hc]

theorem clearGrid_eq (grid : Grid) : clearGrid grid = some deadGrid := by
  have h : clearGrid grid =
      rasterOrder.foldlM
        (fun (g : Grid) (c : Nat × Nat) => g.write (c.1 : Int) (c.2 : Int) false) grid := by
    simp only [clearGrid, rasterOrder, foldlM_flatMap, List.foldlM_map]
  rw [h, foldlM_write_false rasterOrder grid (fun c hc => (mem_rasterOrder c.1 c.2).1 hc),
    ofFn_all_cells _ _ _ (fun a b ha hb => (mem_rasterOrder a b).2 ⟨ha, hb⟩)]

theorem tmod_cases (x : Int) (n : Nat) :
    x.tmod (n : Int) = if 0 ≤ x then x % (n : Int) else -((-x) % (n : Int)) := by
  cases x with
  | ofNat m =>
    rw [if_pos (show (0 : Int) ≤ Int.ofNat m from Int.ofNat_nonneg m)]
    rfl
  | negSucc m =>
    rw [if_neg (show ¬ (0 : Int) ≤ Int.negSucc m from
      Int.not_le.2 (Int.negSucc_lt_zero m))]
    rfl

theorem tmod_add_tmod_width (x : Int) : (x.tmod 160 + 160).tmod 160 = x % 160 := by
  have h := tmod_cases x 160
  have h' := tmod_cases (x.tmod 160 + 160) 160
  simp only [Nat.cast_ofNat] at h h'
  rw [h', h]
  split_ifs <;> omega

theorem tmod_add_tmod_height (y : Int) : (y.tmod 120 + 120).tmod 120 = y % 120 := by
  have h := tmod_cases y 120
  have h' := tmod_cases (y.tmod 120 + 120) 120
  simp only [Nat.cast_ofNat] at h h'
  rw [h', h]
  split_ifs <;> omega

theorem liveNeighbours_eq_count (x y : Int) (grid : Grid) :
    liveNeighbours x y grid =
      ((List.count true
        (neighbourOffsets.map (fun d => grid.torus (x + d.1) (y + d.2))) : Nat) : Int) := by
  simp only [liveNeighbours, List.count, List.countP_eq_length_filter, List.filter_map,
    List.length_map]
  congr 2
  apply List.filter_congr
  intro d _
  simp

theorem handleKeyDownEvent_clear (gl : Globals) (grid : Grid) :
    handleKeyDownEvent Key.SDLK_c gl grid = some (gl, deadGrid) := by
  simp only [handleKeyDownEvent, clearGrid_eq, Option.pure_def, Option.bind_eq_bind,
    Option.some_bind]

theorem clearCommand_eq (w : World) :
    clearCommand w =
      some { buffers := { grid := deadGrid, oldGrid := w.buffers.oldGrid },
             globals := w.globals } := by
  simp only [clearCommand, dispatchEvent, handleKeyDownEvent_clear, Option.pure_def,
    Option.bind_eq_bind, Option.some_bind]

theorem editCell_eq (grid : Grid) (x y : Int) (v : Bool) :
    editCell x y v grid = grid.write x y v := by
  have hx : (x * 4).tdiv 4 = x := Int.mul_tdiv_cancel x (by decide)
  have hy : (y * 4).tdiv 4 = y := Int.mul_tdiv_cancel y (by decide)
  cases v <;> simp [editCell, handleMouseMoveEvent, CELL_SIZE, hx, hy]

/-! ## The claims -/

/-- C1 (rule fidelity of `stepSimulation`): for every read buffer `oldGrid` and every
prior content of the write buffer, `stepSimulation` returns, leaves in the write buffer
at every in-range cell the value `n == 3 || (n == 2 && oldGrid[x][y])` with
`n = calcNeighbours(x, y, oldGrid)` (so a live cell survives iff `n` is 2 or 3 and a
dead cell becomes alive iff `n` is 3), and the result is the same for every other prior
content of the write buffer. -/
theorem stepSimulation_rule_fidelity (grid oldGrid : Grid) :
    ∃ next : Grid,
      stepSimulation { grid := grid, oldGrid := oldGrid } =
          some { grid := next, oldGrid := oldGrid } ∧
        (∀ (i : Fin 160) (j : Fin 120), ∃ n : Int,
          calcNeighbours (i.val : Int) (j.val : Int) oldGrid = some n ∧
            next.cell i j = (decide (n = 3) || (decide (n = 2) && oldGrid.cell i j)) ∧
            next.cell i j =
              (if oldGrid.cell i j then decide (n = 2 ∨ n = 3) else decide (n = 3))) ∧
        ∀ prior : Grid,
          stepSimulation { grid := prior, oldGrid := oldGrid } =
            some { grid := next, oldGrid := oldGrid } := by
  refine ⟨nextGeneration oldGrid, stepSimulation_eq _, ?_, fun prior => stepSimulation_eq _⟩
  intro i j
  refine ⟨liveNeighbours (i.val : Int) (j.val : Int) oldGrid,
    calcNeighbours_eq_cell i.isLt j.isLt _,
    Grid.cell_ofFn _ i j, ?_⟩
  simp only [nextGeneration, Grid.cell_ofFn]
  by_cases h3 : liveNeighbours (i.val : Int) (j.val : Int) oldGrid = 3
  · cases oldGrid.cell i j <;> simp [h3]
  · by_cases h2 : liveNeighbours (i.val : Int) (j.val : Int) oldGrid = 2
    · cases oldGrid.cell i j <;> simp [h2]
    · cases oldGrid.cell i j <;> simp [h2, h3]

/-- C2 (double-buffer isolation): running the loop body of `stepSimulation` over the
cells in the order of any permutation of the 160 x 120 coordinates gives the same
buffers as `stepSimulation`, which visits them in raster order. -/
theorem stepSimulation_order_independent (cells : List (Nat × Nat)) (s : Buffers)
    (h : cells.Perm rasterOrder) : runCells cells s = stepSimulation s := by
  rw [stepSimulation_eq, runCells_eq cells s
    (fun c hc => (mem_rasterOrder c.1 c.2).1 (h.mem_iff.1 hc))]
  rw [ofFn_all_cells _ _ _
    (fun a b ha hb => h.mem_iff.2 ((mem_rasterOrder a b).2 ⟨ha, hb⟩))]

/-- Witness for C2: the reversed raster order, on a full write buffer over a dead read
buffer. -/
theorem stepSimulation_order_independent_witness :
    rasterOrder.reverse.Perm rasterOrder ∧
      runCells rasterOrder.reverse { grid := fullGrid, oldGrid := deadGrid } =
        stepSimulation { grid := fullGrid, oldGrid := deadGrid } :=
  ⟨List.reverse_perm rasterOrder,
    stepSimulation_order_independent rasterOrder.reverse
      { grid := fullGrid, oldGrid := deadGrid } (List.reverse_perm rasterOrder)⟩

/-- C3 (wrap correctness of `isAlive`): shifting `x` by any integer multiple of
`GRID_WIDTH`, or `y` by any integer multiple of `GRID_HEIGHT`, does not change the
result of `isAlive`. -/
theorem isAlive_wrap (grid : Grid) (x y k : Int) :
    isAlive x y grid = isAlive (x + k * GRID_WIDTH) y grid ∧
      isAlive x y grid = isAlive x (y + k * GRID_HEIGHT) grid := by
  simp only [isAlive_eq_torus, GRID_WIDTH, GRID_HEIGHT]
  exact ⟨congrArg some (grid.torus_congr (by omega) rfl),
    congrArg some (grid.torus_congr rfl (by omega))⟩

/-- C4 (recursive wrap equals modular normalisation): `isAlive(x, y, grid)` is the
in-range read `grid[((x % 160) + 160) % 160][((y % 120) + 120) % 120]` with `%` the
truncating remainder of C, and these two indices are the Euclidean residues of `x`
modulo 160 and of `y` modulo 120. -/
theorem isAlive_eq_modular (grid : Grid) (x y : Int) :
    isAlive x y grid =
        grid.read ((x.tmod GRID_WIDTH + GRID_WIDTH).tmod GRID_WIDTH)
          ((y.tmod GRID_HEIGHT + GRID_HEIGHT).tmod GRID_HEIGHT) ∧
      (x.tmod GRID_WIDTH + GRID_WIDTH).tmod GRID_WIDTH = x % GRID_WIDTH ∧
      (y.tmod GRID_HEIGHT + GRID_HEIGHT).tmod GRID_HEIGHT = y % GRID_HEIGHT ∧
      isAlive x y grid = some (grid.torus x y) := by
  simp only [GRID_WIDTH, GRID_HEIGHT, tmod_add_tmod_width, tmod_add_tmod_height,
    isAlive_eq_torus, true_and, and_true]
  rw [grid.read_eq_torus (by omega) (by omega) (by omega) (by omega)]
  exact congrArg some (grid.torus_congr (by omega) (by omega))

/-- C5 (`isAlive` is total): for all integers `x`, `y` the call returns a value; when it
recurses, the arguments of the recursive call have a strictly smaller `wrapMeasure`
and the call returns what the recursive call returns; when it does not recurse, `x` and
`y` are inside the buffer and the call returns the in-range read `grid[x][y]`. -/
theorem isAlive_total (grid : Grid) (x y : Int) :
    (∃ b : Bool, isAlive x y grid = some b) ∧
      match wrapStep x y with
      | some (x', y') =>
          wrapMeasure x' y' < wrapMeasure x y ∧ isAlive x y grid = isAlive x' y' grid
      | none =>
          0 ≤ x ∧ x < GRID_WIDTH ∧ 0 ≤ y ∧ y < GRID_HEIGHT ∧
            isAlive x y grid = grid.read x y ∧ (grid.read x y).isSome = true := by
  refine ⟨⟨grid.torus x y, isAlive_eq_torus x y grid⟩, ?_⟩
  by_cases h1 : x ≥ 160
  · have hs : wrapStep x y = some (x - 160, y) := by
      simp only [wrapStep, GRID_WIDTH, if_pos h1]
    rw [hs]
    refine ⟨?_, ?_⟩
    · simp only [wrapMeasure, wrapDist, GRID_WIDTH, GRID_HEIGHT]
      split_ifs <;> omega
    · rw [isAlive_unfold x y, if_pos h1]
  by_cases h2 : y ≥ 120
  · have hs : wrapStep x y = some (x, y - 120) := by
      simp only [wrapStep, GRID_WIDTH, GRID_HEIGHT, if_neg h1, if_pos h2]
    rw [hs]
    refine ⟨?_, ?_⟩
    · simp only [wrapMeasure, wrapDist, GRID_WIDTH, GRID_HEIGHT]
      split_ifs <;> omega
    · rw [isAlive_unfold x y, if_neg h1, if_pos h2]
  by_cases h3 : x < 0
  · have hs : wrapStep x y = some (x + 160, y) := by
      simp only [wrapStep, GRID_WIDTH, GRID_HEIGHT, if_neg h1, if_neg h2, if_pos h3]
    rw [hs]
    refine ⟨?_, ?_⟩
    · simp only [wrapMeasure, wrapDist, GRID_WIDTH, GRID_HEIGHT]
      split_ifs <;> omega
    · rw [isAlive_unfold x y, if_neg h1, if_neg h2, if_pos h3]
  by_cases h4 : y < 0
  · have hs : wrapStep x y = some (x, y + 120) := by
      simp only [wrapStep, GRID_WIDTH, GRID_HEIGHT, if_neg h1, if_neg h2, if_neg h3,
        if_pos h4]
    rw [hs]
    refine ⟨?_, ?_⟩
    · simp only [wrapMeasure, wrapDist, GRID_WIDTH, GRID_HEIGHT]
      split_ifs <;> omega
    · rw [isAlive_unfold x y, if_neg h1, if_neg h2, if_neg h3, if_pos h4]
  · have hs : wrapStep x y = none := by
      simp only [wrapStep, GRID_WIDTH, GRID_HEIGHT, if_neg h1, if_neg h2, if_neg h3,
        if_neg h4]
    rw [hs]
    simp only [GRID_WIDTH, GRID_HEIGHT]
    refine ⟨by omega, by omega, by omega, by omega, ?_, ?_⟩
    · rw [isAlive_unfold x y, if_neg h1, if_neg h2, if_neg h3, if_neg h4]
    · rw [grid.read_eq_torus (by omega) (by omega) (by omega) (by omega)]
      rfl

/-- C6, as stated, fails: at `(INT_MAX, 0)` the `int` addition `(x - 1) + 2` overflows,
so `calcNeighbours` has no value there, and in particular not the number of live
toroidal neighbours (here on the grid whose only live cell is `(128, 0)`, a neighbour of
the cell `(127, 0)` that `(INT_MAX, 0)` resolves to). -/
theorem calcNeighbours_overflows_at_int_max :
    calcNeighbours INT_MAX 0 (gridOf [(128, 0)]) = none ∧
      ¬ calcNeighbours INT_MAX 0 (gridOf [(128, 0)]) =
          some (liveNeighbours INT_MAX 0 (gridOf [(128, 0)])) := by
  have h := calcNeighbours_int_max_x 0 (gridOf [(128, 0)]) int_window_zero
  refine ⟨h, ?_⟩
  rw [h]
  exact fun hc => Option.noConfusion hc

/-- C6, amended: for every grid and every `int` `(x, y)` with both coordinates strictly
between `INT_MIN` and `INT_MAX`, `calcNeighbours` returns the number of the eight offsets
`(dx, dy)` for which the cell at column `(x + dx) mod 160`, row `(y + dy) mod 120` is
alive; at the four corners these are the cells listed, each lookup wrapped on its
own. -/
theorem calcNeighbours_counts (grid : Grid) (x y : Int)
    (hx : INT_MIN < x ∧ x < INT_MAX) (hy : INT_MIN < y ∧ y < INT_MAX) :
    calcNeighbours x y grid = some (liveNeighbours x y grid) ∧
      calcNeighbours 0 0 grid =
        some ((List.count true [grid.cell 159 119, grid.cell 159 0, grid.cell 159 1, grid.cell 0 119,
          grid.cell 0 1, grid.cell 1 119, grid.cell 1 0, grid.cell 1 1] : Nat) : Int) ∧
      calcNeighbours 159 0 grid =
        some ((List.count true [grid.cell 158 119, grid.cell 158 0, grid.cell 158 1, grid.cell 159 119,
          grid.cell 159 1, grid.cell 0 119, grid.cell 0 0, grid.cell 0 1] : Nat) : Int) ∧
      calcNeighbours 0 119 grid =
        some ((List.count true [grid.cell 159 118, grid.cell 159 119, grid.cell 159 0, grid.cell 0 118,
          grid.cell 0 0, grid.cell 1 118, grid.cell 1 119, grid.cell 1 0] : Nat) : Int) ∧
      calcNeighbours 159 119 grid =
        some ((List.count true [grid.cell 158 118, grid.cell 158 119, grid.cell 158 0, grid.cell 159 118,
          grid.cell 159 0, grid.cell 0 118, grid.cell 0 119, grid.cell 0 0] : Nat) : Int) := by
  refine ⟨calcNeighbours_eq x y grid hx hy, ?_, ?_, ?_, ?_⟩
  · rw [calcNeighbours_eq 0 0 grid (by decide) (by decide),
      liveNeighbours_eq_count]
    rfl
  · rw [calcNeighbours_eq 159 0 grid (by decide) (by decide),
      liveNeighbours_eq_count]
    rfl
  · rw [calcNeighbours_eq 0 119 grid (by decide) (by decide),
      liveNeighbours_eq_count]
    rfl
  · rw [calcNeighbours_eq 159 119 grid (by decide) (by decide),
      liveNeighbours_eq_count]
    rfl

/-- Witness for the amended C6: the coordinate `(-321, 245)`, outside the grid on both
axes, on the full grid. -/
theorem calcNeighbours_counts_witness :
    (INT_MIN < (-321 : Int) ∧ (-321 : Int) < INT_MAX) ∧
      (INT_MIN < (245 : Int) ∧ (245 : Int) < INT_MAX) ∧
      calcNeighbours (-321) 245 fullGrid = some (liveNeighbours (-321) 245 fullGrid) :=
  ⟨by decide, by decide,
    (calcNeighbours_counts fullGrid (-321) 245 (by decide) (by decide)).1⟩

/-- C7 (diff correctness of one tick): a tick (`swapGrids` then `stepSimulation`)
returns; afterwards `oldGrid` holds the pre-tick current generation and `grid` its
B3/S23 successor; so a cell of `grid` differs from the same cell of `oldGrid` exactly
when the rule changed it: it was alive with a neighbour count other than 2 and 3, or
dead with a neighbour count of 3. -/
theorem tick_diff (s : Buffers) :
    ∃ next : Grid,
      tick s = some { grid := next, oldGrid := s.grid } ∧
        next = nextGeneration s.grid ∧
        ∀ (i : Fin 160) (j : Fin 120), ∃ n : Int,
          calcNeighbours (i.val : Int) (j.val : Int) s.grid = some n ∧
            next.cell i j = (decide (n = 3) || (decide (n = 2) && s.grid.cell i j)) ∧
            (next.cell i j ≠ s.grid.cell i j ↔
              (s.grid.cell i j = true ∧ n ≠ 2 ∧ n ≠ 3) ∨
                (s.grid.cell i j = false ∧ n = 3)) := by
  refine ⟨nextGeneration s.grid, ?_, rfl, ?_⟩
  · rw [tick, stepSimulation_eq]
    rfl
  · intro i j
    refine ⟨liveNeighbours (i.val : Int) (j.val : Int) s.grid,
      calcNeighbours_eq_cell i.isLt j.isLt _,
      Grid.cell_ofFn _ i j, ?_⟩
    simp only [nextGeneration, Grid.cell_ofFn]
    by_cases h3 : liveNeighbours (i.val : Int) (j.val : Int) s.grid = 3
    · cases s.grid.cell i j <;> simp [h3]
    · by_cases h2 : liveNeighbours (i.val : Int) (j.val : Int) s.grid = 2
      · cases s.grid.cell i j <;> simp [h2]
      · cases s.grid.cell i j <;> simp [h2, h3]

/-- C8, as stated, fails: setting cell `(160, 0)` through the edit path is a write
outside the buffer, not a write to the wrapped cell `(0, 0)`; no buffer results in which
`isAlive(0, 0, grid)` is true. -/
theorem editCell_out_of_range_not_wrapped :
    editCell 160 0 true deadGrid = none ∧
      ¬ ∃ g : Grid, editCell 160 0 true deadGrid = some g ∧ isAlive 0 0 g = some true := by
  have h : editCell 160 0 true deadGrid = none := by
    rw [editCell_eq]
    simp [Grid.write]
  refine ⟨h, ?_⟩
  rintro ⟨g, hg, _⟩
  rw [h] at hg
  exact Option.noConfusion hg

/-- C8, amended: for every in-range cell `(x, y)` and every boolean `v`, setting the
cell to `v` through the edit path succeeds, and afterwards `isAlive` returns `v` at
`(x, y)` and at every coordinate that wraps to it, `(x + k * 160, y + l * 120)`. -/
theorem editCell_then_isAlive (grid : Grid) (x y k l : Int) (v : Bool)
    (hx0 : 0 ≤ x) (hx1 : x < GRID_WIDTH) (hy0 : 0 ≤ y) (hy1 : y < GRID_HEIGHT) :
    ∃ g : Grid, editCell x y v grid = some g ∧
      isAlive x y g = some v ∧
      isAlive (x + k * GRID_WIDTH) (y + l * GRID_HEIGHT) g = some v := by
  simp only [GRID_WIDTH, GRID_HEIGHT] at *
  have hr : 0 ≤ x ∧ x < 160 ∧ 0 ≤ y ∧ y < 120 := ⟨hx0, hx1, hy0, hy1⟩
  refine ⟨grid.set ⟨x.toNat, by omega⟩ ⟨y.toNat, by omega⟩ v, ?_, ?_, ?_⟩
  · rw [editCell_eq]
    simp only [Grid.write, dif_pos hr]
  · rw [isAlive_eq_torus]
    have hx : (x % 160).toNat = x.toNat := by omega
    have hy : (y % 120).toNat = y.toNat := by omega
    simp only [Grid.torus, Grid.cell_set, hx, hy]
    simp
  · rw [isAlive_eq_torus]
    have hx : ((x + k * 160) % 160).toNat = x.toNat := by omega
    have hy : ((y + l * 120) % 120).toNat = y.toNat := by omega
    simp only [Grid.torus, Grid.cell_set, hx, hy]
    simp

/-- Witness for the amended C8: after setting cell `(0, 0)` to `true` on the dead grid,
`isAlive(160, 0, grid)` is true. -/
theorem editCell_then_isAlive_witness :
    (0 : Int) ≤ 0 ∧ (0 : Int) < GRID_WIDTH ∧ (0 : Int) < GRID_HEIGHT ∧
      ∃ g : Grid, editCell 0 0 true deadGrid = some g ∧
        isAlive 0 0 g = some true ∧
        isAlive (0 + 1 * GRID_WIDTH) (0 + 0 * GRID_HEIGHT) g = some true :=
  ⟨by decide, by decide, by decide,
    editCell_then_isAlive deadGrid 0 0 1 0 true (by decide) (by decide) (by decide)
      (by decide)⟩

/-- C9, as stated, fails: after the clear command on a world whose previous-generation
buffer is all alive, that buffer still has cell `(0, 0)` alive. -/
theorem clearCommand_keeps_oldGrid :
    ∃ w : World,
      clearCommand
          { buffers := { grid := fullGrid, oldGrid := fullGrid },
            globals := { quit := false, paused := false,
                         currentState := MouseState.None } } = some w ∧
        w.buffers.oldGrid.cell 0 0 = true :=
  ⟨_, clearCommand_eq _, Grid.cell_ofFn _ 0 0⟩

/-- C9, amended: after the clear command every cell of the current buffer `grid` is
false, and the previous-generation buffer `oldGrid` and the globals are as they were. -/
theorem clearCommand_clears_grid_only (w : World) :
    ∃ cleared : Grid,
      clearCommand w =
          some { buffers := { grid := cleared, oldGrid := w.buffers.oldGrid },
                 globals := w.globals } ∧
        ∀ (i : Fin 160) (j : Fin 120), cleared.cell i j = false :=
  ⟨deadGrid, clearCommand_eq w, fun i j => Grid.cell_ofFn _ i j⟩

/-- C10 (`clearGrid` kills every cell and is idempotent): `clearGrid` returns, afterwards
`isAlive` is false at every integer coordinate, and a second `clearGrid` leaves the
cleared buffer as it is. -/
theorem clearGrid_kills_idempotent (grid : Grid) :
    ∃ cleared : Grid,
      clearGrid grid = some cleared ∧
        (∀ x y : Int, isAlive x y cleared = some false) ∧
        clearGrid cleared = some cleared ∧
        (clearGrid grid).bind clearGrid = clearGrid grid := by
  refine ⟨deadGrid, clearGrid_eq grid, ?_, clearGrid_eq deadGrid, ?_⟩
  · intro x y
    rw [isAlive_eq_torus, Grid.torus, deadGrid, Grid.cell_ofFn]
  · rw [clearGrid_eq grid, Option.some_bind, clearGrid_eq deadGrid]

/-! ## Neighbour counting: bound and centre -/

theorem liveNeighbours_bounds (x y : Int) (grid : Grid) :
    0 ≤ liveNeighbours x y grid ∧ liveNeighbours x y grid ≤ 8 := by
  have h := List.length_filter_le (fun d : Int × Int => grid.torus (x + d.1) (y + d.2))
    neighbourOffsets
  have h8 : neighbourOffsets.length = 8 := rfl
  simp only [liveNeighbours]
  omega

theorem neighbourOffsets_bounds {d : Int × Int} (hd : d ∈ neighbourOffsets) :
    (-1 ≤ d.1 ∧ d.1 ≤ 1) ∧ (-1 ≤ d.2 ∧ d.2 ≤ 1) ∧ ¬ (d.1 = 0 ∧ d.2 = 0) := by
  simp only [neighbourOffsets, List.mem_cons, List.mem_singleton, List.not_mem_nil,
    or_false] at hd
  rcases hd with h | h | h | h | h | h | h | h <;> subst h <;> decide

theorem Grid.torus_eq_cell (grid : Grid) (x y : Int) (i : Fin 160) (j : Fin 120)
    (hi : (i.val : Int) = x % 160) (hj : (j.val : Int) = y % 120) :
    grid.torus x y = grid.cell i j := by
  rw [← grid.torus_coe i j]
  exact grid.torus_congr (by omega) (by omega)

theorem liveNeighbours_congr_off_centre (x y : Int) (g g' : Grid)
    (h : ∀ (i : Fin 160) (j : Fin 120),
      ¬ ((i.val : Int) = x % 160 ∧ (j.val : Int) = y % 120) → g.cell i j = g'.cell i j) :
    liveNeighbours x y g = liveNeighbours x y g' := by
  simp only [liveNeighbours]
  congr 2
  apply List.filter_congr
  intro d hd
  have hb := neighbourOffsets_bounds hd
  have hx : 0 ≤ (x + d.1) % 160 ∧ (x + d.1) % 160 < 160 := by omega
  have hy : 0 ≤ (y + d.2) % 120 ∧ (y + d.2) % 120 < 120 := by omega
  have e1 := g.torus_eq_cell (x + d.1) (y + d.2)
    ⟨((x + d.1) % 160).toNat, by omega⟩ ⟨((y + d.2) % 120).toNat, by omega⟩
    (by simp only []; omega) (by simp only []; omega)
  have e2 := g'.torus_eq_cell (x + d.1) (y + d.2)
    ⟨((x + d.1) % 160).toNat, by omega⟩ ⟨((y + d.2) % 120).toNat, by omega⟩
    (by simp only []; omega) (by simp only []; omega)
  rw [e1, e2]
  apply h
  simp only []
  omega

theorem torus_gridOf (cells : List (Int × Int)) (x y : Int) :
    (gridOf cells).torus x y =
      decide (∃ c ∈ cells, c.1 % 160 = x % 160 ∧ c.2 % 120 = y % 120) := by
  have hx : (((x % 160).toNat : Nat) : Int) = x % 160 := by omega
  have hy : (((y % 120).toNat : Nat) : Int) = y % 120 := by omega
  simp only [Grid.torus, gridOf, Grid.cell_ofFn, hx, hy]

theorem torus_deadGrid (x y : Int) : deadGrid.torus x y = false := by
  simp only [Grid.torus, deadGrid, Grid.cell_ofFn]

theorem liveNeighbours_deadGrid (x y : Int) : liveNeighbours x y deadGrid = 0 := by
  simp [liveNeighbours, torus_deadGrid]

/-- C13, as stated, fails: at `(INT_MIN, 0)` the `int` subtraction `x - 1` overflows,
so `calcNeighbours` returns no value, in `[0, 8]` or otherwise. -/
theorem calcNeighbours_no_value_at_int_min :
    calcNeighbours INT_MIN 0 fullGrid = none ∧
      ¬ ∃ n : Int, calcNeighbours INT_MIN 0 fullGrid = some n ∧ 0 ≤ n ∧ n ≤ 8 := by
  have h := calcNeighbours_int_min 0 fullGrid
  refine ⟨h, ?_⟩
  rintro ⟨n, hn, _⟩
  rw [h] at hn
  exact Option.noConfusion hn

/-- C13, amended: for every grid and every `int` `(x, y)` with both coordinates strictly
between `INT_MIN` and `INT_MAX`, `calcNeighbours` returns a value `n` with
`0 <= n <= 8`. -/
theorem calcNeighbours_bound (grid : Grid) (x y : Int)
    (hx : INT_MIN < x ∧ x < INT_MAX) (hy : INT_MIN < y ∧ y < INT_MAX) :
    ∃ n : Int, calcNeighbours x y grid = some n ∧ 0 ≤ n ∧ n ≤ 8 :=
  ⟨liveNeighbours x y grid, calcNeighbours_eq x y grid hx hy,
    liveNeighbours_bounds x y grid⟩

/-- Witness for the amended C13: the largest admitted coordinates, on the full grid. -/
theorem calcNeighbours_bound_witness :
    (INT_MIN < INT_MAX - 1 ∧ INT_MAX - 1 < INT_MAX) ∧
      (INT_MIN < INT_MIN + 1 ∧ INT_MIN + 1 < INT_MAX) ∧
      ∃ n : Int,
        calcNeighbours (INT_MAX - 1) (INT_MIN + 1) fullGrid = some n ∧ 0 ≤ n ∧ n ≤ 8 :=
  ⟨by decide, by decide,
    calcNeighbours_bound fullGrid (INT_MAX - 1) (INT_MIN + 1) (by decide) (by decide)⟩

/-- C14, as stated, fails: at `(0, INT_MAX)` the `int` addition `(y - 1) + 2` overflows,
so on the grid whose only live cell is the one `(0, INT_MAX)` resolves to,
`calcNeighbours` has no value, and in particular not the value 0. -/
theorem calcNeighbours_lone_cell_at_int_max :
    calcNeighbours 0 INT_MAX (gridOf [(0, INT_MAX)]) = none ∧
      ¬ calcNeighbours 0 INT_MAX (gridOf [(0, INT_MAX)]) = some 0 := by
  have h := calcNeighbours_int_max_y 0 (gridOf [(0, INT_MAX)]) int_window_zero
  refine ⟨h, ?_⟩
  rw [h]
  exact fun hc => Option.noConfusion hc

/-- C14, amended (the centre is never counted): for every `int` `(x, y)` with both
coordinates strictly between `INT_MIN` and `INT_MAX`, two grids that differ at most in
the cell that `(x, y)` resolves to give the same value of `calcNeighbours(x, y, .)`; and
on the grid whose only live cell is the one `(x, y)` resolves to,
`calcNeighbours(x, y, .)` is 0. -/
theorem calcNeighbours_ignores_centre (x y : Int) (g g' : Grid)
    (hx : INT_MIN < x ∧ x < INT_MAX) (hy : INT_MIN < y ∧ y < INT_MAX)
    (h : ∀ (i : Fin 160) (j : Fin 120),
      ¬ ((i.val : Int) = x % 160 ∧ (j.val : Int) = y % 120) → g.cell i j = g'.cell i j) :
    (∃ n : Int, calcNeighbours x y g = some n ∧ calcNeighbours x y g' = some n) ∧
      calcNeighbours x y (gridOf [(x, y)]) = some 0 := by
  refine ⟨⟨liveNeighbours x y g, calcNeighbours_eq x y g hx hy, ?_⟩, ?_⟩
  · rw [calcNeighbours_eq x y g' hx hy, liveNeighbours_congr_off_centre x y g g' h]
  · rw [calcNeighbours_eq x y _ hx hy,
      liveNeighbours_congr_off_centre x y (gridOf [(x, y)]) deadGrid,
      liveNeighbours_deadGrid]
    intro i j hij
    rw [gridOf, deadGrid, Grid.cell_ofFn, Grid.cell_ofFn]
    simp only [List.mem_singleton, exists_eq_left, decide_eq_false_iff_not]
    intro hc
    exact hij ⟨hc.1.symm, hc.2.symm⟩

/-- Witness for the amended C14: the dead grid and the grid with only cell `(0, 0)` set
differ only at the centre of the neighbourhood of `(0, 0)`. -/
theorem calcNeighbours_ignores_centre_witness :
    (INT_MIN < (0 : Int) ∧ (0 : Int) < INT_MAX) ∧
      (∀ (i : Fin 160) (j : Fin 120),
        ¬ ((i.val : Int) = (0 : Int) % 160 ∧ (j.val : Int) = (0 : Int) % 120) →
          deadGrid.cell i j = (deadGrid.set 0 0 true).cell i j) ∧
      (∃ n : Int, calcNeighbours 0 0 deadGrid = some n ∧
        calcNeighbours 0 0 (deadGrid.set 0 0 true) = some n) ∧
      calcNeighbours 0 0 (gridOf [(0, 0)]) = some 0 :=
  have h : ∀ (i : Fin 160) (j : Fin 120),
      ¬ ((i.val : Int) = (0 : Int) % 160 ∧ (j.val : Int) = (0 : Int) % 120) →
        deadGrid.cell i j = (deadGrid.set 0 0 true).cell i j := by
    intro i j hij
    rw [Grid.cell_set, if_neg]
    rintro ⟨hi, hj⟩
    apply hij
    rw [hi, hj]
    decide
  ⟨by decide, h,
    calcNeighbours_ignores_centre 0 0 deadGrid (deadGrid.set 0 0 true) (by decide)
      (by decide) h⟩

/-- C19 (frame of `stepSimulation`): `stepSimulation` returns and leaves every cell of
the read buffer `oldGrid` as it was; only the write buffer is modified, and this already
holds for each run of the loop body. -/
theorem stepSimulation_frame (s : Buffers) :
    (∃ s' : Buffers, stepSimulation s = some s' ∧ s'.oldGrid = s.oldGrid ∧
        ∀ (i : Fin 160) (j : Fin 120), s'.oldGrid.cell i j = s.oldGrid.cell i j) ∧
      ∀ (i : Fin 160) (j : Fin 120), ∃ s' : Buffers,
        stepCell (i.val : Int) (j.val : Int) s = some s' ∧ s'.oldGrid = s.oldGrid ∧
          ∀ (a : Fin 160) (b : Fin 120), ¬ (a = i ∧ b = j) →
            s'.grid.cell a b = s.grid.cell a b := by
  refine ⟨⟨_, stepSimulation_eq s, rfl, fun _ _ => rfl⟩, ?_⟩
  intro i j
  refine ⟨_, stepCell_eq i.isLt j.isLt s, rfl, ?_⟩
  intro a b hab
  simp only [Grid.cell_set]
  rw [if_neg hab]

/-! ## Translation equivariance -/

theorem liveNeighbours_congr (g : Grid) {x x' y y' : Int}
    (hx : x % 160 = x' % 160) (hy : y % 120 = y' % 120) :
    liveNeighbours x y g = liveNeighbours x' y' g := by
  simp only [liveNeighbours]
  congr 2
  apply List.filter_congr
  intro d _
  exact g.torus_congr (by omega) (by omega)

theorem torus_nextGeneration (g : Grid) (x y : Int) :
    (nextGeneration g).torus x y =
      (decide (liveNeighbours x y g = 3) ||
        (decide (liveNeighbours x y g = 2) && g.torus x y)) := by
  have hl : liveNeighbours (((x % 160).toNat : Nat) : Int) (((y % 120).toNat : Nat) : Int) g =
      liveNeighbours x y g := liveNeighbours_congr g (by omega) (by omega)
  simp only [Grid.torus, nextGeneration, Grid.cell_ofFn, hl]

theorem torus_shiftGrid (dx dy : Int) (g : Grid) (x y : Int) :
    (shiftGrid dx dy g).torus x y = g.torus (x - dx) (y - dy) := by
  rw [Grid.torus, shiftGrid, Grid.cell_ofFn]
  have hx : (((x % 160).toNat : Nat) : Int) = x % 160 := by omega
  have hy : (((y % 120).toNat : Nat) : Int) = y % 120 := by omega
  simp only [hx, hy]
  exact g.torus_congr (by omega) (by omega)

theorem liveNeighbours_shiftGrid (dx dy : Int) (g : Grid) (x y : Int) :
    liveNeighbours x y (shiftGrid dx dy g) = liveNeighbours (x - dx) (y - dy) g := by
  have h : neighbourOffsets.filter
        (fun d => (shiftGrid dx dy g).torus (x + d.1) (y + d.2)) =
      neighbourOffsets.filter (fun d => g.torus (x - dx + d.1) (y - dy + d.2)) := by
    apply List.filter_congr
    intro d _
    rw [torus_shiftGrid]
    exact g.torus_congr (by omega) (by omega)
  simp only [liveNeighbours, h]

theorem nextGeneration_shiftGrid (dx dy : Int) (g : Grid) :
    nextGeneration (shiftGrid dx dy g) = shiftGrid dx dy (nextGeneration g) := by
  apply Grid.ext_cell
  intro i j
  rw [← Grid.torus_coe (nextGeneration (shiftGrid dx dy g)),
    ← Grid.torus_coe (shiftGrid dx dy (nextGeneration g)),
    torus_nextGeneration (shiftGrid dx dy g), torus_shiftGrid dx dy (nextGeneration g),
    torus_nextGeneration g, liveNeighbours_shiftGrid, torus_shiftGrid dx dy g]

/-- C18 (translation equivariance of the step): for every buffer `g` and every integer
shift `(dx, dy)`, stepping the toroidally shifted buffer gives the toroidal shift of the
result of stepping `g`, whatever the write buffers held. -/
theorem stepSimulation_shift_equivariant (g w w' : Grid) (dx dy : Int) :
    ∃ next : Grid,
      stepSimulation { grid := w, oldGrid := g } = some { grid := next, oldGrid := g } ∧
        stepSimulation { grid := w', oldGrid := shiftGrid dx dy g } =
          some { grid := shiftGrid dx dy next, oldGrid := shiftGrid dx dy g } ∧
        ∀ (i : Fin 160) (j : Fin 120),
          (shiftGrid dx dy next).cell i j =
            next.torus ((i.val : Int) - dx) ((j.val : Int) - dy) := by
  refine ⟨nextGeneration g, stepSimulation_eq _, ?_, ?_⟩
  · rw [stepSimulation_eq, nextGeneration_shiftGrid]
  · intro i j
    rw [shiftGrid, Grid.cell_ofFn]

/-! ## `draw` -/

theorem drawAt_eq {x y : Nat} (hx : x < 160) (hy : y < 120) (s : Buffers)
    (events : List DrawEvent) :
    drawAt (x : Int) (y : Int) (s, events) = some (s, events ++ changeEvents s (x, y)) := by
  have hg := s.grid.read_eq_torus (x := (x : Int)) (y := (y : Int))
    (by omega) (by omega) (by omega) (by omega)
  have ho := s.oldGrid.read_eq_torus (x := (x : Int)) (y := (y : Int))
    (by omega) (by omega) (by omega) (by omega)
  simp only [drawAt, changeEvents, hg, ho, Option.pure_def, Option.bind_eq_bind,
    Option.some_bind]
  cases s.grid.torus (x : Int) (y : Int) <;> cases s.oldGrid.torus (x : Int) (y : Int) <;>
    simp

theorem foldlM_drawAt (s : Buffers) (cells : List (Nat × Nat)) :
    ∀ (events : List DrawEvent), (∀ c ∈ cells, c.1 < 160 ∧ c.2 < 120) →
      cells.foldlM (fun (st : Buffers × List DrawEvent) (c : Nat × Nat) =>
          drawAt (c.1 : Int) (c.2 : Int) st) (s, events) =
        some (s, events ++ cells.flatMap (changeEvents s)) := by
  induction cells with
  | nil =>
    intro events _
    simp
  | cons c cells ih =>
    intro events h
    have hc := h c (List.mem_cons_self _ _)
    have hrest : ∀ d ∈ cells, d.1 < 160 ∧ d.2 < 120 :=
      fun d hd => h d (List.mem_cons_of_mem _ hd)
    rw [List.foldlM_cons, drawAt_eq hc.1 hc.2, Option.bind_eq_bind, Option.some_bind,
      ih _ hrest, List.flatMap_cons, List.append_assoc]

theorem draw_eq (s : Buffers) :
    draw s = some (s, rasterOrder.flatMap (changeEvents s)) := by
  have h : draw s =
      rasterOrder.foldlM (fun (st : Buffers × List DrawEvent) (c : Nat × Nat) =>
        drawAt (c.1 : Int) (c.2 : Int) st) (s, []) := by
    simp only [draw, rasterOrder, foldlM_flatMap, List.foldlM_map]
  rw [h, foldlM_drawAt s rasterOrder [] (fun c hc => (mem_rasterOrder c.1 c.2).1 hc),
    List.nil_append]

theorem mem_changeEvents_new (s : Buffers) (i : Fin 160) (j : Fin 120) :
    DrawEvent.drawNewCell (i.val : Int) (j.val : Int) ∈
        rasterOrder.flatMap (changeEvents s) ↔
      s.grid.cell i j = true ∧ s.oldGrid.cell i j = false := by
  rw [List.mem_flatMap]
  constructor
  · rintro ⟨c, _, hc⟩
    simp only [changeEvents, List.mem_append] at hc
    rcases hc with hc | hc
    · split_ifs at hc with hcond
      · simp only [List.mem_singleton, DrawEvent.drawNewCell.injEq] at hc
        rw [← hc.1, ← hc.2, Grid.torus_coe, Grid.torus_coe] at hcond
        simpa using hcond
      · simp at hc
    · split_ifs at hc <;> simp at hc
  · rintro ⟨hg, ho⟩
    refine ⟨(i.val, j.val), (mem_rasterOrder _ _).2 ⟨i.isLt, j.isLt⟩, ?_⟩
    simp [changeEvents, Grid.torus_coe, hg, ho]

theorem mem_changeEvents_clear (s : Buffers) (i : Fin 160) (j : Fin 120) :
    DrawEvent.clearCell (i.val : Int) (j.val : Int) ∈
        rasterOrder.flatMap (changeEvents s) ↔
      s.grid.cell i j = false ∧ s.oldGrid.cell i j = true := by
  rw [List.mem_flatMap]
  constructor
  · rintro ⟨c, _, hc⟩
    simp only [changeEvents, List.mem_append] at hc
    rcases hc with hc | hc
    · split_ifs at hc <;> simp at hc
    · split_ifs at hc with hcond
      · simp only [List.mem_singleton, DrawEvent.clearCell.injEq] at hc
        rw [← hc.1, ← hc.2, Grid.torus_coe, Grid.torus_coe] at hcond
        simpa using hcond
      · simp at hc
  · rintro ⟨hg, ho⟩
    refine ⟨(i.val, j.val), (mem_rasterOrder _ _).2 ⟨i.isLt, j.isLt⟩, ?_⟩
    simp [changeEvents, Grid.torus_coe, hg, ho]

/-- C17 (`draw` emits events exactly for changed cells): `draw` returns with both
buffers as they were; for every in-range cell it emits a new-cell event iff the cell is
alive in `grid` and dead in `oldGrid`, a clear event iff it is dead in `grid` and alive
in `oldGrid`, never both, and none when the two buffers agree on the cell. -/
theorem draw_emits_changes (s : Buffers) :
    ∃ events : List DrawEvent,
      draw s = some (s, events) ∧
        ∀ (i : Fin 160) (j : Fin 120),
          (DrawEvent.drawNewCell (i.val : Int) (j.val : Int) ∈ events ↔
              s.grid.cell i j = true ∧ s.oldGrid.cell i j = false) ∧
            (DrawEvent.clearCell (i.val : Int) (j.val : Int) ∈ events ↔
              s.grid.cell i j = false ∧ s.oldGrid.cell i j = true) ∧
            ¬ (DrawEvent.drawNewCell (i.val : Int) (j.val : Int) ∈ events ∧
                DrawEvent.clearCell (i.val : Int) (j.val : Int) ∈ events) ∧
            ¬ (s.grid.cell i j = s.oldGrid.cell i j ∧
                (DrawEvent.drawNewCell (i.val : Int) (j.val : Int) ∈ events ∨
                  DrawEvent.clearCell (i.val : Int) (j.val : Int) ∈ events)) := by
  refine ⟨_, draw_eq s, ?_⟩
  intro i j
  rw [mem_changeEvents_new, mem_changeEvents_clear]
  refine ⟨Iff.rfl, Iff.rfl, ?_, ?_⟩
  · rintro ⟨⟨hg, _⟩, ⟨hg', _⟩⟩
    rw [hg] at hg'
    exact Bool.noConfusion hg'
  · rintro ⟨he, h | h⟩
    · rw [h.1, h.2] at he
      exact Bool.noConfusion he
    · rw [h.1, h.2] at he
      exact Bool.noConfusion he

/-! ## `initGrid` -/

theorem initCell_eq (draws : Nat → Int) {x y : Nat} (hx : x < 160) (hy : y < 120)
    (st : Buffers × Nat) :
    initCell draws (x : Int) (y : Int) st =
      some ({ grid := st.1.grid.set ⟨x, hx⟩ ⟨y, hy⟩ (decide ((draws st.2).tmod 2 ≠ 0)),
              oldGrid := st.1.oldGrid.set ⟨x, hx⟩ ⟨y, hy⟩ false }, st.2 + 1) := by
  simp only [initCell, Grid.write_coe _ hx hy, Option.pure_def, Option.bind_eq_bind,
    Option.some_bind]

theorem initGrid_inner (draws : Nat → Int) {x : Nat} (hx : x < 160) (s : Buffers)
    (k : Nat) :
    ∀ n : Nat, n ≤ 120 →
      (List.range n).foldlM (fun (st : Buffers × Nat) (j : Nat) =>
          initCell draws (x : Int) (j : Int) st) (s, k) =
        some ({ grid := Grid.ofFn fun i j =>
                  if i.val = x ∧ j.val < n then decide ((draws (k + j.val)).tmod 2 ≠ 0)
                  else s.grid.cell i j,
                oldGrid := Grid.ofFn fun i j =>
                  if i.val = x ∧ j.val < n then false else s.oldGrid.cell i j },
              k + n) := by
  intro n
  induction n with
  | zero =>
    intro _
    have hg : ∀ g : Grid, Grid.ofFn (fun i j => g.cell i j) = g :=
      fun g => Grid.ext_cell (fun i j => Grid.cell_ofFn _ i j)
    simp [hg]
  | succ n ih =>
    intro hn
    have hy : n < 120 := by omega
    rw [List.range_succ, List.foldlM_append, ih (by omega), Option.bind_eq_bind,
      Option.some_bind, List.foldlM_cons, initCell_eq draws hx hy, Option.bind_eq_bind,
      Option.some_bind, List.foldlM_nil, Option.pure_def]
    refine congrArg some (Prod.ext (congrArg₂ Buffers.mk ?_ ?_) rfl)
    · apply Grid.ext_cell
      intro i j
      simp only [Grid.cell_set, Grid.cell_ofFn]
      by_cases h1 : i = ⟨x, hx⟩ ∧ j = ⟨n, hy⟩
      · have hi : i.val = x := congrArg Fin.val h1.1
        have hj : j.val = n := congrArg Fin.val h1.2
        rw [if_pos h1, if_pos ⟨hi, by omega⟩, hj]
      · rw [if_neg h1]
        by_cases h2 : i.val = x ∧ j.val < n
        · rw [if_pos h2, if_pos ⟨h2.1, by omega⟩]
        · have h3 : ¬ (i.val = x ∧ j.val < n + 1) := by
            rintro ⟨hi, hj⟩
            by_cases hjn : j.val = n
            · exact h1 ⟨Fin.ext hi, Fin.ext hjn⟩
            · exact h2 ⟨hi, by omega⟩
          rw [if_neg h2, if_neg h3]
    · apply Grid.ext_cell
      intro i j
      simp only [Grid.cell_set, Grid.cell_ofFn]
      by_cases h1 : i = ⟨x, hx⟩ ∧ j = ⟨n, hy⟩
      · have hi : i.val = x := congrArg Fin.val h1.1
        have hj : j.val = n := congrArg Fin.val h1.2
        rw [if_pos h1, if_pos ⟨hi, by omega⟩]
      · rw [if_neg h1]
        by_cases h2 : i.val = x ∧ j.val < n
        · rw [if_pos h2, if_pos ⟨h2.1, by omega⟩]
        · have h3 : ¬ (i.val = x ∧ j.val < n + 1) := by
            rintro ⟨hi, hj⟩
            by_cases hjn : j.val = n
            · exact h1 ⟨Fin.ext hi, Fin.ext hjn⟩
            · exact h2 ⟨hi, by omega⟩
          rw [if_neg h2, if_neg h3]

theorem initGrid_outer (draws : Nat → Int) (s : Buffers) (k : Nat) :
    ∀ m : Nat, m ≤ 160 →
      (List.range m).foldlM (fun (st : Buffers × Nat) (i : Nat) =>
          (List.range 120).foldlM (fun (st : Buffers × Nat) (j : Nat) =>
            initCell draws (i : Int) (j : Int) st) st) (s, k) =
        some ({ grid := Grid.ofFn fun i j =>
                  if i.val < m then
                    decide ((draws (k + (i.val * 120 + j.val))).tmod 2 ≠ 0)
                  else s.grid.cell i j,
                oldGrid := Grid.ofFn fun i j =>
                  if i.val < m then false else s.oldGrid.cell i j },
              k + m * 120) := by
  intro m
  induction m with
  | zero =>
    intro _
    have hg : ∀ g : Grid, Grid.ofFn (fun i j => g.cell i j) = g :=
      fun g => Grid.ext_cell (fun i j => Grid.cell_ofFn _ i j)
    simp [hg]
  | succ m ih =>
    intro hm
    have hx : m < 160 := by omega
    rw [List.range_succ m, List.foldlM_append, ih (by omega), Option.bind_eq_bind,
      Option.some_bind, List.foldlM_cons, initGrid_inner draws hx _ _ 120 (Nat.le_refl _),
      Option.bind_eq_bind, Option.some_bind, List.foldlM_nil, Option.pure_def]
    refine congrArg some (Prod.ext (congrArg₂ Buffers.mk ?_ ?_) (by simp only []; omega))
    · apply Grid.ext_cell
      intro i j
      simp only [Grid.cell_ofFn]
      by_cases h1 : i.val = m
      · rw [if_pos ⟨h1, j.isLt⟩, if_pos (by omega), h1]
        congr 4
        omega
      · have h1' : ¬ (i.val = m ∧ j.val < 120) := fun h => h1 h.1
        rw [if_neg h1']
        by_cases h2 : i.val < m
        · rw [if_pos h2, if_pos (by omega)]
        · rw [if_neg h2, if_neg (by omega)]
    · apply Grid.ext_cell
      intro i j
      simp only [Grid.cell_ofFn]
      by_cases h1 : i.val = m
      · rw [if_pos ⟨h1, j.isLt⟩, if_pos (by omega)]
      · have h1' : ¬ (i.val = m ∧ j.val < 120) := fun h => h1 h.1
        rw [if_neg h1']
        by_cases h2 : i.val < m
        · rw [if_pos h2, if_pos (by omega)]
        · rw [if_neg h2, if_neg (by omega)]

/-- C15 (initialisation): for every random stream, `initGrid` returns after drawing
exactly `160 * 120` values; afterwards every cell of `oldGrid` is false and cell
`grid[i][j]` is the parity (`value % 2 != 0`) of the value with index `i * 120 + j` among
those drawn by the call. -/
theorem initGrid_spec (draws : Nat → Int) (drawn : Nat) (s : Buffers) :
    ∃ s' : Buffers,
      initGrid draws drawn s = some (s', drawn + 160 * 120) ∧
        (∀ (i : Fin 160) (j : Fin 120), s'.oldGrid.cell i j = false) ∧
        ∀ (i : Fin 160) (j : Fin 120),
          s'.grid.cell i j =
            decide ((draws (drawn + (i.val * 120 + j.val))).tmod 2 ≠ 0) := by
  refine ⟨_, initGrid_outer draws s drawn 160 (Nat.le_refl _), ?_, ?_⟩
  · intro i j
    simp only [Grid.cell_ofFn]
    rw [if_pos i.isLt]
  · intro i j
    simp only [Grid.cell_ofFn]
    rw [if_pos i.isLt]

/-! ## Small patterns: the step on the torus is the step on the plane -/

theorem tick_eq (s : Buffers) :
    tick s = some { grid := nextGeneration s.grid, oldGrid := s.grid } := by
  rw [tick, stepSimulation_eq]
  rfl

theorem wrap_iff_width (a x c d : Int) (hc : -41 ≤ c ∧ c < 41) (hd : -1 ≤ d ∧ d ≤ 1) :
    (c + a) % 160 = (x + d) % 160 ↔ c = relX a x + d := by
  simp only [relX]
  omega

theorem wrap_iff_height (b y c d : Int) (hc : -41 ≤ c ∧ c < 41) (hd : -1 ≤ d ∧ d ≤ 1) :
    (c + b) % 120 = (y + d) % 120 ↔ c = relY b y + d := by
  simp only [relY]
  omega

theorem torus_gridOf_translate (P : List (Int × Int)) (hP : InWindow 41 P)
    (a b x y dx dy : Int) (hdx : -1 ≤ dx ∧ dx ≤ 1) (hdy : -1 ≤ dy ∧ dy ≤ 1) :
    (gridOf (translate a b P)).torus (x + dx) (y + dy) =
      decide ((relX a x + dx, relY b y + dy) ∈ P) := by
  rw [torus_gridOf]
  apply decide_eq_decide.2
  constructor
  · rintro ⟨c, hc, h1, h2⟩
    simp only [translate, List.mem_map] at hc
    obtain ⟨c0, hc0, rfl⟩ := hc
    have hw := hP c0 hc0
    have e1 := (wrap_iff_width a x c0.1 dx hw.1 hdx).1 h1
    have e2 := (wrap_iff_height b y c0.2 dy hw.2 hdy).1 h2
    rw [← e1, ← e2]
    exact hc0
  · intro h
    have hw := hP _ h
    refine ⟨(relX a x + dx + a, relY b y + dy + b), ?_, ?_, ?_⟩
    · simp only [translate, List.mem_map]
      exact ⟨_, h, rfl⟩
    · exact (wrap_iff_width a x _ dx hw.1 hdx).2 rfl
    · exact (wrap_iff_height b y _ dy hw.2 hdy).2 rfl

theorem torus_gridOf_translate_centre (P : List (Int × Int)) (hP : InWindow 41 P)
    (a b x y : Int) :
    (gridOf (translate a b P)).torus x y = decide ((relX a x, relY b y) ∈ P) := by
  have h := torus_gridOf_translate P hP a b x y 0 0 (by decide) (by decide)
  simpa using h

theorem liveNeighbours_gridOf_translate (P : List (Int × Int)) (hP : InWindow 41 P)
    (a b x y : Int) :
    liveNeighbours x y (gridOf (translate a b P)) =
      ((planeCount P (relX a x, relY b y) : Nat) : Int) := by
  have h : neighbourOffsets.filter
        (fun d => (gridOf (translate a b P)).torus (x + d.1) (y + d.2)) =
      neighbourOffsets.filter
        (fun d => decide ((relX a x + d.1, relY b y + d.2) ∈ P)) := by
    apply List.filter_congr
    intro d hd
    have hb := neighbourOffsets_bounds hd
    exact torus_gridOf_translate P hP a b x y d.1 d.2 hb.1 hb.2.1
  simp only [liveNeighbours, planeCount, h]

theorem planeRule_mem_candidates (P : List (Int × Int)) (p : Int × Int)
    (h : planeRule P p = true) : p ∈ planeCandidates P := by
  have hpos : 0 < planeCount P p := by
    simp only [planeRule, Bool.or_eq_true, Bool.and_eq_true, decide_eq_true_eq] at h
    omega
  simp only [planeCount] at hpos
  obtain ⟨d, hd⟩ := List.exists_mem_of_length_pos hpos
  rw [List.mem_filter, decide_eq_true_eq] at hd
  simp only [planeCandidates, List.mem_flatMap]
  refine ⟨_, hd.2, ?_⟩
  have hoff := hd.1
  simp only [neighbourOffsets, List.mem_cons, List.mem_singleton, List.not_mem_nil,
    or_false] at hoff
  rcases hoff with h' | h' | h' | h' | h' | h' | h' | h' <;> subst h' <;>
    simp [Prod.ext_iff]

theorem mem_planeStep (P : List (Int × Int)) (p : Int × Int) :
    p ∈ planeStep P ↔ planeRule P p = true := by
  rw [planeStep, List.mem_filter]
  exact ⟨fun h => h.2, fun h => ⟨planeRule_mem_candidates P p h, h⟩⟩

theorem inWindow_planeStep (P : List (Int × Int)) (hP : InWindow 40 P) :
    InWindow 41 (planeStep P) := by
  intro c hc
  rw [planeStep, List.mem_filter] at hc
  have hcand := hc.1
  simp only [planeCandidates, List.mem_flatMap, List.mem_cons, List.mem_singleton,
    List.not_mem_nil, or_false] at hcand
  obtain ⟨c0, hc0, hh⟩ := hcand
  have hw := hP c0 hc0
  rcases hh with h' | h' | h' | h' | h' | h' | h' | h' | h' <;> subst h' <;>
    simp only [] <;> omega

theorem inWindow_mono (P : List (Int × Int)) (hP : InWindow 40 P) : InWindow 41 P := by
  intro c hc
  have hw := hP c hc
  omega

/-- For a pattern that fits the window, one generation on the torus is one generation
on the plane, wherever the pattern is placed. -/
theorem nextGeneration_gridOf (P : List (Int × Int)) (hP : InWindow 40 P) (a b : Int) :
    nextGeneration (gridOf (translate a b P)) = gridOf (translate a b (planeStep P)) := by
  apply Grid.ext_cell
  intro i j
  rw [← Grid.torus_coe (nextGeneration (gridOf (translate a b P))),
    ← Grid.torus_coe (gridOf (translate a b (planeStep P))),
    torus_nextGeneration, liveNeighbours_gridOf_translate P (inWindow_mono P hP),
    torus_gridOf_translate_centre P (inWindow_mono P hP),
    torus_gridOf_translate_centre (planeStep P) (inWindow_planeStep P hP)]
  have hmem : decide ((relX a (i.val : Int), relY b (j.val : Int)) ∈ planeStep P) =
      planeRule P (relX a (i.val : Int), relY b (j.val : Int)) := by
    cases hr : planeRule P (relX a (i.val : Int), relY b (j.val : Int))
    · apply decide_eq_false
      intro hm
      rw [(mem_planeStep P _).1 hm] at hr
      exact Bool.noConfusion hr
    · exact decide_eq_true ((mem_planeStep P _).2 hr)
  have e3 : decide (((planeCount P (relX a (i.val : Int), relY b (j.val : Int)) : Nat) : Int)
      = 3) = decide (planeCount P (relX a (i.val : Int), relY b (j.val : Int)) = 3) :=
    decide_eq_decide.2 (by omega)
  have e2 : decide (((planeCount P (relX a (i.val : Int), relY b (j.val : Int)) : Nat) : Int)
      = 2) = decide (planeCount P (relX a (i.val : Int), relY b (j.val : Int)) = 2) :=
    decide_eq_decide.2 (by omega)
  rw [hmem, e3, e2, planeRule]

theorem gridOf_congr (P Q : List (Int × Int)) (h1 : ∀ c ∈ P, c ∈ Q) (h2 : ∀ c ∈ Q, c ∈ P) :
    gridOf P = gridOf Q := by
  apply Grid.ext_cell
  intro i j
  simp only [gridOf, Grid.cell_ofFn]
  apply decide_eq_decide.2
  constructor
  · rintro ⟨c, hc, h⟩
    exact ⟨c, h1 c hc, h⟩
  · rintro ⟨c, hc, h⟩
    exact ⟨c, h2 c hc, h⟩

theorem gridOf_translate_congr (P Q : List (Int × Int)) (a b : Int)
    (h1 : ∀ c ∈ P, c ∈ Q) (h2 : ∀ c ∈ Q, c ∈ P) :
    gridOf (translate a b P) = gridOf (translate a b Q) := by
  apply gridOf_congr
  · intro c hc
    simp only [translate, List.mem_map] at hc ⊢
    obtain ⟨c0, hc0, e⟩ := hc
    exact ⟨c0, h1 c0 hc0, e⟩
  · intro c hc
    simp only [translate, List.mem_map] at hc ⊢
    obtain ⟨c0, hc0, e⟩ := hc
    exact ⟨c0, h2 c0 hc0, e⟩

/-- One generation of a placed pattern, the plane step given up to the order and the
multiplicity of its cells. -/
theorem nextGeneration_pattern (P Q : List (Int × Int)) (hP : InWindow 40 P) (a b : Int)
    (h1 : ∀ c ∈ planeStep P, c ∈ Q) (h2 : ∀ c ∈ Q, c ∈ planeStep P) :
    nextGeneration (gridOf (translate a b P)) = gridOf (translate a b Q) := by
  rw [nextGeneration_gridOf P hP a b, gridOf_translate_congr _ _ a b h1 h2]

theorem gridOf_nil : gridOf [] = deadGrid := by
  apply Grid.ext_cell
  intro i j
  simp [gridOf, deadGrid, Grid.cell_ofFn]

theorem ticks_succ (n : Nat) (s : Buffers) :
    ticks (n + 1) s = ticks n { grid := nextGeneration s.grid, oldGrid := s.grid } := by
  rw [ticks, tick_eq, Option.some_bind]

theorem eq_gridOf (g : Grid) (cells : List (Int × Int))
    (h : ∀ (i : Fin 160) (j : Fin 120), g.cell i j = true ↔
      ∃ c ∈ cells, c.1 % 160 = (i.val : Int) ∧ c.2 % 120 = (j.val : Int)) :
    g = gridOf cells := by
  apply Grid.ext_cell
  intro i j
  rw [gridOf, Grid.cell_ofFn]
  cases hc : g.cell i j
  · exact (decide_eq_false (fun hex => by rw [(h i j).2 hex] at hc; cases hc)).symm
  · exact (decide_eq_true ((h i j).1 hc)).symm

theorem cell_gridOf_iff (cells : List (Int × Int)) (i : Fin 160) (j : Fin 120) :
    (gridOf cells).cell i j = true ↔
      ∃ c ∈ cells, c.1 % 160 = (i.val : Int) ∧ c.2 % 120 = (j.val : Int) := by
  rw [gridOf, Grid.cell_ofFn, decide_eq_true_eq]

theorem ticks_deadGrid (n : Nat) :
    ∀ old : Grid, ∃ s' : Buffers,
      ticks n { grid := deadGrid, oldGrid := old } = some s' ∧ s'.grid = deadGrid := by
  have hstep : nextGeneration deadGrid = deadGrid := by
    have h := nextGeneration_gridOf [] (fun c hc => by cases hc) 0 0
    have hnil : planeStep [] = [] := rfl
    rw [hnil] at h
    simp only [translate, List.map_nil, gridOf_nil] at h
    exact h
  induction n with
  | zero => exact fun old => ⟨_, rfl, rfl⟩
  | succ n ih =>
    intro old
    rw [ticks_succ]
    simp only [hstep]
    exact ih deadGrid

/-! ## The block -/

theorem blockCells_eq_translate (a b : Int) :
    blockCells a b = translate a b (blockCells 0 0) := by
  simp [blockCells, translate, add_comm]

theorem planeStep_block :
    (∀ c ∈ planeStep (blockCells 0 0), c ∈ blockCells 0 0) ∧
      (∀ c ∈ blockCells 0 0, c ∈ planeStep (blockCells 0 0)) := by
  decide

theorem inWindow_block : InWindow 40 (blockCells 0 0) := by
  unfold InWindow
  decide

theorem nextGeneration_block (a b : Int) :
    nextGeneration (gridOf (blockCells a b)) = gridOf (blockCells a b) := by
  rw [blockCells_eq_translate a b]
  exact nextGeneration_pattern _ _ inWindow_block a b planeStep_block.1 planeStep_block.2

theorem ticks_block (a b : Int) (n : Nat) :
    ∀ old : Grid, ∃ s' : Buffers,
      ticks n { grid := gridOf (blockCells a b), oldGrid := old } = some s' ∧
        s'.grid = gridOf (blockCells a b) := by
  induction n with
  | zero => exact fun old => ⟨_, rfl, rfl⟩
  | succ n ih =>
    intro old
    rw [ticks_succ]
    simp only [nextGeneration_block]
    exact ih _

/-- C11 (block still life): for every position `(a, b)`, if the current generation has
exactly the four cells `(a, b)`, `(a+1, b)`, `(a, b+1)`, `(a+1, b+1)` (wrapped) alive,
then after any number `n` of ticks the current generation is that same grid. -/
theorem block_still_life (a b : Int) (g old : Grid) (n : Nat)
    (hg : ∀ (i : Fin 160) (j : Fin 120), g.cell i j = true ↔
      ∃ c ∈ blockCells a b, c.1 % 160 = (i.val : Int) ∧ c.2 % 120 = (j.val : Int)) :
    ∃ s' : Buffers, ticks n { grid := g, oldGrid := old } = some s' ∧ s'.grid = g := by
  rw [eq_gridOf g _ hg]
  exact ticks_block a b n old

/-- Witness for C11: the block whose top-left cell is the corner `(159, 119)`, which
wraps around both edges, after three ticks. -/
theorem block_still_life_witness :
    (∀ (i : Fin 160) (j : Fin 120), (gridOf (blockCells 159 119)).cell i j = true ↔
      ∃ c ∈ blockCells 159 119, c.1 % 160 = (i.val : Int) ∧ c.2 % 120 = (j.val : Int)) ∧
      ∃ s' : Buffers,
        ticks 3 { grid := gridOf (blockCells 159 119), oldGrid := fullGrid } = some s' ∧
          s'.grid = gridOf (blockCells 159 119) :=
  ⟨cell_gridOf_iff _,
    block_still_life 159 119 (gridOf (blockCells 159 119)) fullGrid 3 (cell_gridOf_iff _)⟩

/-! ## The glider -/

theorem gliderCells_eq_translate (a b : Int) :
    gliderCells a b = translate a b (gliderCells 0 0) := by
  simp [gliderCells, translate, add_comm]

theorem gliderCells_succ_eq_translate (a b : Int) :
    gliderCells (a + 1) (b + 1) = translate a b (gliderCells 1 1) := by
  simp only [gliderCells, translate, List.map_cons, List.map_nil, List.cons.injEq,
    Prod.mk.injEq, and_true]
  omega

theorem planeStep_glider_0 :
    (∀ c ∈ planeStep (gliderCells 0 0), c ∈ [((0 : Int), (1 : Int)), (2, 1), (1, 2), (2, 2), (1, 3)]) ∧
      (∀ c ∈ [((0 : Int), (1 : Int)), (2, 1), (1, 2), (2, 2), (1, 3)],
        c ∈ planeStep (gliderCells 0 0)) := by
  decide

theorem planeStep_glider_1 :
    (∀ c ∈ planeStep [((0 : Int), (1 : Int)), (2, 1), (1, 2), (2, 2), (1, 3)],
        c ∈ [((2 : Int), (1 : Int)), (0, 2), (2, 2), (1, 3), (2, 3)]) ∧
      (∀ c ∈ [((2 : Int), (1 : Int)), (0, 2), (2, 2), (1, 3), (2, 3)],
        c ∈ planeStep [((0 : Int), (1 : Int)), (2, 1), (1, 2), (2, 2), (1, 3)]) := by
  decide

theorem planeStep_glider_2 :
    (∀ c ∈ planeStep [((2 : Int), (1 : Int)), (0, 2), (2, 2), (1, 3), (2, 3)],
        c ∈ [((1 : Int), (1 : Int)), (2, 2), (3, 2), (1, 3), (2, 3)]) ∧
      (∀ c ∈ [((1 : Int), (1 : Int)), (2, 2), (3, 2), (1, 3), (2, 3)],
        c ∈ planeStep [((2 : Int), (1 : Int)), (0, 2), (2, 2), (1, 3), (2, 3)]) := by
  decide

theorem planeStep_glider_3 :
    (∀ c ∈ planeStep [((1 : Int), (1 : Int)), (2, 2), (3, 2), (1, 3), (2, 3)],
        c ∈ gliderCells 1 1) ∧
      (∀ c ∈ gliderCells 1 1,
        c ∈ planeStep [((1 : Int), (1 : Int)), (2, 2), (3, 2), (1, 3), (2, 3)]) := by
  decide

theorem inWindow_glider_0 : InWindow 40 (gliderCells 0 0) := by
  unfold InWindow
  decide

theorem inWindow_glider_1 :
    InWindow 40 [((0 : Int), (1 : Int)), (2, 1), (1, 2), (2, 2), (1, 3)] := by
  unfold InWindow
  decide

theorem inWindow_glider_2 :
    InWindow 40 [((2 : Int), (1 : Int)), (0, 2), (2, 2), (1, 3), (2, 3)] := by
  unfold InWindow
  decide

theorem inWindow_glider_3 :
    InWindow 40 [((1 : Int), (1 : Int)), (2, 2), (3, 2), (1, 3), (2, 3)] := by
  unfold InWindow
  decide

theorem ticks_glider (a b : Int) (old : Grid) :
    ∃ s' : Buffers,
      ticks 4 { grid := gridOf (gliderCells a b), oldGrid := old } = some s' ∧
        s'.grid = gridOf (gliderCells (a + 1) (b + 1)) := by
  rw [ticks_succ, ticks_succ, ticks_succ, ticks_succ]
  simp only []
  rw [gliderCells_eq_translate a b,
    nextGeneration_pattern _ _ inWindow_glider_0 a b planeStep_glider_0.1 planeStep_glider_0.2,
    nextGeneration_pattern _ _ inWindow_glider_1 a b planeStep_glider_1.1 planeStep_glider_1.2,
    nextGeneration_pattern _ _ inWindow_glider_2 a b planeStep_glider_2.1 planeStep_glider_2.2,
    nextGeneration_pattern _ _ inWindow_glider_3 a b planeStep_glider_3.1 planeStep_glider_3.2,
    ← gliderCells_succ_eq_translate a b]
  exact ⟨_, rfl, rfl⟩

/-- C12 (glider translation): for every offset `(a, b)`, if the current generation has
exactly the five glider cells `(a+1, b)`, `(a+2, b+1)`, `(a, b+2)`, `(a+1, b+2)`,
`(a+2, b+2)` (wrapped) alive, then after exactly 4 ticks the current generation has
exactly the five cells of the glider at offset `(a+1, b+1)` alive. -/
theorem glider_translates (a b : Int) (g old : Grid)
    (hg : ∀ (i : Fin 160) (j : Fin 120), g.cell i j = true ↔
      ∃ c ∈ gliderCells a b, c.1 % 160 = (i.val : Int) ∧ c.2 % 120 = (j.val : Int)) :
    ∃ s' : Buffers, ticks 4 { grid := g, oldGrid := old } = some s' ∧
      s'.grid = gridOf (gliderCells (a + 1) (b + 1)) ∧
      ∀ (i : Fin 160) (j : Fin 120), s'.grid.cell i j = true ↔
        ∃ c ∈ gliderCells (a + 1) (b + 1),
          c.1 % 160 = (i.val : Int) ∧ c.2 % 120 = (j.val : Int) := by
  rw [eq_gridOf g _ hg]
  obtain ⟨s', h1, h2⟩ := ticks_glider a b old
  refine ⟨s', h1, h2, ?_⟩
  intro i j
  rw [h2]
  exact cell_gridOf_iff _ i j

/-- Witness for C12: the glider at offset `(158, 118)`, which crosses the corner of the
grid during its four ticks. -/
theorem glider_translates_witness :
    (∀ (i : Fin 160) (j : Fin 120), (gridOf (gliderCells 158 118)).cell i j = true ↔
      ∃ c ∈ gliderCells 158 118, c.1 % 160 = (i.val : Int) ∧ c.2 % 120 = (j.val : Int)) ∧
      ∃ s' : Buffers,
        ticks 4 { grid := gridOf (gliderCells 158 118), oldGrid := fullGrid } = some s' ∧
          s'.grid = gridOf (gliderCells (158 + 1) (118 + 1)) ∧
          ∀ (i : Fin 160) (j : Fin 120), s'.grid.cell i j = true ↔
            ∃ c ∈ gliderCells (158 + 1) (118 + 1),
              c.1 % 160 = (i.val : Int) ∧ c.2 % 120 = (j.val : Int) :=
  ⟨cell_gridOf_iff _,
    glider_translates 158 118 (gridOf (gliderCells 158 118)) fullGrid (cell_gridOf_iff _)⟩

/-! ## The diagonal line -/

theorem diagonalCells_eq_translate (a b : Int) :
    diagonalCells a b = translate a b (diagonalCells 0 0) := by
  simp [diagonalCells, translate, add_comm]

theorem middle_eq_translate (a b : Int) :
    [(a + 1, b + 1)] = translate a b [((1 : Int), (1 : Int))] := by
  simp [translate, add_comm]

theorem planeStep_diagonal_0 :
    (∀ c ∈ planeStep (diagonalCells 0 0), c ∈ [((1 : Int), (1 : Int))]) ∧
      (∀ c ∈ [((1 : Int), (1 : Int))], c ∈ planeStep (diagonalCells 0 0)) := by
  decide

theorem planeStep_diagonal_1 :
    (∀ c ∈ planeStep [((1 : Int), (1 : Int))], c ∈ ([] : List (Int × Int))) ∧
      (∀ c ∈ ([] : List (Int × Int)), c ∈ planeStep [((1 : Int), (1 : Int))]) := by
  decide

theorem inWindow_diagonal_0 : InWindow 40 (diagonalCells 0 0) := by
  unfold InWindow
  decide

theorem inWindow_diagonal_1 : InWindow 40 [((1 : Int), (1 : Int))] := by
  unfold InWindow
  decide

theorem nextGeneration_diagonal (a b : Int) :
    nextGeneration (gridOf (diagonalCells a b)) = gridOf [(a + 1, b + 1)] ∧
      nextGeneration (gridOf [(a + 1, b + 1)]) = deadGrid := by
  rw [diagonalCells_eq_translate a b, middle_eq_translate a b,
    nextGeneration_pattern _ _ inWindow_diagonal_0 a b planeStep_diagonal_0.1
      planeStep_diagonal_0.2,
    nextGeneration_pattern _ _ inWindow_diagonal_1 a b planeStep_diagonal_1.1
      planeStep_diagonal_1.2]
  exact ⟨rfl, gridOf_nil⟩

theorem diagonal_ne (a b : Int) :
    gridOf [(a + 1, b + 1)] ≠ gridOf (diagonalCells a b) ∧
      deadGrid ≠ gridOf (diagonalCells a b) := by
  have hD : (gridOf (diagonalCells a b)).torus a b = true := by
    rw [torus_gridOf, decide_eq_true_eq]
    exact ⟨(a, b), by simp [diagonalCells], rfl, rfl⟩
  have hM : (gridOf [(a + 1, b + 1)]).torus a b = false := by
    rw [torus_gridOf, decide_eq_false_iff_not]
    rintro ⟨c, hc, h1, _⟩
    rw [List.mem_singleton] at hc
    subst hc
    simp only [] at h1
    omega
  constructor
  · intro h
    rw [h, hD] at hM
    exact Bool.noConfusion hM
  · intro h
    rw [← h, torus_deadGrid] at hD
    exact Bool.noConfusion hD

theorem ticks_diagonal (a b : Int) (old : Grid) :
    ticks 1 { grid := gridOf (diagonalCells a b), oldGrid := old } =
        some { grid := gridOf [(a + 1, b + 1)], oldGrid := gridOf (diagonalCells a b) } ∧
      ∀ n : Nat, ∃ s' : Buffers,
        ticks (n + 2) { grid := gridOf (diagonalCells a b), oldGrid := old } = some s' ∧
          s'.grid = deadGrid := by
  refine ⟨?_, ?_⟩
  · rw [ticks_succ]
    simp only [(nextGeneration_diagonal a b).1]
    rfl
  · intro n
    rw [ticks_succ, ticks_succ]
    simp only [(nextGeneration_diagonal a b).1, (nextGeneration_diagonal a b).2]
    exact ticks_deadGrid n _

theorem ticks_diagonal_ne (a b : Int) (old : Grid) (p : Nat) :
    ∃ s' : Buffers,
      ticks (p + 1) { grid := gridOf (diagonalCells a b), oldGrid := old } = some s' ∧
        s'.grid ≠ gridOf (diagonalCells a b) := by
  cases p with
  | zero => exact ⟨_, (ticks_diagonal a b old).1, (diagonal_ne a b).1⟩
  | succ n =>
    obtain ⟨s', h1, h2⟩ := (ticks_diagonal a b old).2 n
    refine ⟨s', h1, ?_⟩
    rw [h2]
    exact (diagonal_ne a b).2

/-- C16, as stated, fails: starting from the diagonal line `(0, 0)`, `(1, 1)`, `(2, 2)`,
no positive number of ticks gives the starting pattern again. -/
theorem diagonal_never_recurs :
    ¬ ∃ p : Nat, 0 < p ∧ ∃ s' : Buffers,
      ticks p { grid := gridOf (diagonalCells 0 0), oldGrid := deadGrid } = some s' ∧
        s'.grid = gridOf (diagonalCells 0 0) := by
  rintro ⟨p, hp, s', h1, h2⟩
  obtain ⟨q, rfl⟩ : ∃ q, p = q + 1 := ⟨p - 1, by omega⟩
  obtain ⟨t, ht1, ht2⟩ := ticks_diagonal_ne 0 0 deadGrid q
  rw [h1] at ht1
  cases ht1
  exact ht2 h2

/-- C16, amended: if the current generation has exactly the three cells `(a, b)`,
`(a+1, b+1)`, `(a+2, b+2)` (wrapped) alive, then after one tick exactly the middle cell
`(a+1, b+1)` is alive, after two or more ticks every cell is dead, and after no positive
number of ticks is the current generation the starting pattern again. -/
theorem diagonal_dies (a b : Int) (g old : Grid)
    (hg : ∀ (i : Fin 160) (j : Fin 120), g.cell i j = true ↔
      ∃ c ∈ diagonalCells a b, c.1 % 160 = (i.val : Int) ∧ c.2 % 120 = (j.val : Int)) :
    (∃ s' : Buffers, ticks 1 { grid := g, oldGrid := old } = some s' ∧
        s'.grid = gridOf [(a + 1, b + 1)]) ∧
      (∀ n : Nat, ∃ s' : Buffers,
        ticks (n + 2) { grid := g, oldGrid := old } = some s' ∧ s'.grid = deadGrid) ∧
      ∀ p : Nat, ∃ s' : Buffers,
        ticks (p + 1) { grid := g, oldGrid := old } = some s' ∧ s'.grid ≠ g := by
  rw [eq_gridOf g _ hg]
  exact ⟨⟨_, (ticks_diagonal a b old).1, rfl⟩, (ticks_diagonal a b old).2,
    ticks_diagonal_ne a b old⟩

/-- Witness for the amended C16: the diagonal line starting at the corner `(159, 119)`,
which wraps around both edges. -/
theorem diagonal_dies_witness :
    (∀ (i : Fin 160) (j : Fin 120), (gridOf (diagonalCells 159 119)).cell i j = true ↔
      ∃ c ∈ diagonalCells 159 119,
        c.1 % 160 = (i.val : Int) ∧ c.2 % 120 = (j.val : Int)) ∧
      (∃ s' : Buffers,
        ticks 1 { grid := gridOf (diagonalCells 159 119), oldGrid := fullGrid } = some s' ∧
          s'.grid = gridOf [(159 + 1, 119 + 1)]) ∧
      (∀ n : Nat, ∃ s' : Buffers,
        ticks (n + 2) { grid := gridOf (diagonalCells 159 119), oldGrid := fullGrid } =
            some s' ∧ s'.grid = deadGrid) ∧
      ∀ p : Nat, ∃ s' : Buffers,
        ticks (p + 1) { grid := gridOf (diagonalCells 159 119), oldGrid := fullGrid } =
            some s' ∧ s'.grid ≠ gridOf (diagonalCells 159 119) :=
  ⟨cell_gridOf_iff _,
    diagonal_dies 159 119 (gridOf (diagonalCells 159 119)) fullGrid (cell_gridOf_iff _)⟩

end GameOfLife
